import Mathlib

/-
  Verification of the irc_rs chat relay server.

  The definitions below are a shallow embedding of the Rust sources:
    - src/server/src/message.rs : wire codec (parsing and serialization)
    - src/server/src/server.rs  : session loop, command dispatcher, routing
  Strings are modelled as lists of characters; the registries (DashMap) are
  modelled as association lists, which fixes one iteration order (the real
  iteration order is unspecified).  Writing to a client socket is modelled by
  an output event list; whether a write to a given client succeeds is carried
  by the boolean field sinkOk of the participant record.
-/

namespace IrcRs

/-- Strings from the Rust code are modelled as lists of characters. -/
abbrev Str := List Char

/-- Whitespace test used by trim_end (the ASCII part of char::is_whitespace). -/
def isWs (c : Char) : Bool :=
  c = ' ' || c = '\t' || c = '\n' || c = '\r' || c = '\x0b' || c = '\x0c'

/-- Embedding of str::trim_end: drop trailing whitespace. -/
def trimEnd (s : Str) : Str :=
  (s.reverse.dropWhile isWs).reverse

/-- Embedding of str::split_once with a one-character pattern: split at the
first occurrence of sep, returning the parts before and after it. -/
def splitOnce (sep : Char) : Str → Option (Str × Str)
  | [] => none
  | c :: rest =>
    if c = sep then some ([], rest)
    else Option.map (fun p => (c :: p.1, p.2)) (splitOnce sep rest)

/-- Embedding of Message::get_next_word (message.rs lines 169-174): the first
word before a space and the rest, or the whole input and an empty rest. -/
def getNextWord (s : Str) : Str × Str :=
  match splitOnce ' ' s with
  | some p => p
  | none => (s, [])

/-- Embedding of the Command enum of message.rs. -/
inductive Command where
  | user | nick | join | kick | part | privMsg | list | away | quit
  | error | ping | pong | unknown
deriving DecidableEq

/-- Uppercasing of a string, character by character (ASCII-faithful embedding
of str::to_uppercase as used on command keywords). -/
def toUpperStr (s : Str) : Str := s.map Char.toUpper

/-- Embedding of Command::from_str (message.rs lines 188-205). -/
def Command.fromStr (s : Str) : Command :=
  let u := toUpperStr s
  if u = "USER".toList then .user
  else if u = "NICK".toList then .nick
  else if u = "JOIN".toList then .join
  else if u = "KICK".toList then .kick
  else if u = "PART".toList then .part
  else if u = "PRIVMSG".toList then .privMsg
  else if u = "LIST".toList then .list
  else if u = "AWAY".toList then .away
  else if u = "QUIT".toList then .quit
  else if u = "PING".toList then .ping
  else if u = "PONG".toList then .pong
  else if u = "ERROR".toList then .error
  else .unknown

/-- Embedding of the uppercased Debug rendering of a Command used by
Display for Message (message.rs line 228): format Debug then to_uppercase. -/
def Command.toStr : Command → Str
  | .user => "USER".toList
  | .nick => "NICK".toList
  | .join => "JOIN".toList
  | .kick => "KICK".toList
  | .part => "PART".toList
  | .privMsg => "PRIVMSG".toList
  | .list => "LIST".toList
  | .away => "AWAY".toList
  | .quit => "QUIT".toList
  | .error => "ERROR".toList
  | .ping => "PING".toList
  | .pong => "PONG".toList
  | .unknown => "UNKNOWN".toList

/-- Embedding of the Message struct of message.rs.  The field named prefix in
the Rust code is called pfx here. -/
structure Message where
  pfx : Option Str
  command : Command
  params : List Str
deriving DecidableEq

/-- Parse failure of Message::from; the only failure is an empty command. -/
inductive ParseError where
  | noCommand
deriving DecidableEq

/-- Fuel-indexed embedding of the parameter loop of Message::from (message.rs
lines 134-147): while the rest is nonempty, a token starting with a colon
consumes the remainder as one parameter, otherwise the next word is pushed.
The fuel only bounds the recursion; any fuel above the input length gives the
loop result. -/
def parseParamsGo (fuel : Nat) (s : Str) : List Str :=
  match s, fuel with
  | [], _ => []
  | _ :: _, 0 => []
  | c :: rest, Nat.succ n =>
    if c = ':' then [rest]
    else
      let p := getNextWord (c :: rest)
      p.1 :: parseParamsGo n p.2

/-- The parameter loop of Message::from, with enough fuel. -/
def parseParams (s : Str) : List Str := parseParamsGo (s.length + 1) s

/-- Shared tail of Message::from after the optional prefix was removed
(message.rs lines 119-153): cut the command word, fail if it is empty,
otherwise build the message. -/
def parseRest (pv : Option Str) (raw : Str) : Except ParseError Message :=
  let cw := getNextWord raw
  if cw.1 = [] then .error .noCommand
  else .ok { pfx := pv, command := Command.fromStr cw.1, params := parseParams cw.2 }

/-- Embedding of Message::from (message.rs lines 101-154): trim the end, and
if the line starts with a colon, split_once removes exactly that first colon
(the tail) and the source word is cut from what follows; then parse command
and parameters. -/
def parseMsg (raw0 : Str) : Except ParseError Message :=
  let t := trimEnd raw0
  if t.head? = some ':' then
    parseRest (some (getNextWord t.tail).1) (getNextWord t.tail).2
  else parseRest none t

/-- Embedding of the parameter rendering in Display for Message (message.rs
lines 210-221): a parameter containing a space is emitted with a leading
colon, in place. -/
def fmtParam (x : Str) : Str := if ' ' ∈ x then ':' :: x else x

/-- Embedding of Vec::join with a one-space separator. -/
def joinSp : List Str → Str
  | [] => []
  | [x] => x
  | x :: y :: xs => x ++ ' ' :: joinSp (y :: xs)

/-- Embedding of Display for Message (message.rs lines 207-240): optional
colon-led source, the uppercased command word, one space, and the joined
parameters (the format string always inserts that one space). -/
def displayMsg (m : Message) : Str :=
  match m.pfx with
  | some p => ':' :: p ++ ' ' :: (Command.toStr m.command ++ ' ' :: joinSp (m.params.map fmtParam))
  | none => Command.toStr m.command ++ ' ' :: joinSp (m.params.map fmtParam)

/-- Embedding of ToIrc::to_irc for Message (message.rs lines 91-95): the
displayed line followed by CR LF. -/
def toIrc (m : Message) : Str := displayMsg m ++ ['\r', '\n']

/-- The last character of the string, if any, is not whitespace. -/
def lastNonWs (s : Str) : Prop := ∀ c, s.getLast? = some c → isWs c = false

/-- Boolean side condition on a parameter list for the reparse property: the
last parameter, if any, is nonempty, and if it begins with a colon it also
contains a space.  (A parse whose trailing parameter is empty loses it on
reserialization, and a space-free trailing parameter beginning with a colon
loses the colon.) -/
def lastParamOkB (ps : List Str) : Bool :=
  match ps.getLast? with
  | none => true
  | some t => !t.isEmpty && (!(t.head? == some ':') || t.contains ' ')

deriving instance DecidableEq for Except

/-- Modelled from the spec: the participant record of src/user.rs, which is
not under src/ (only message.rs, server.rs and main.rs are).  Fields follow
section 3 of the spec: optional nickname and username, the is_registered and
is_away booleans, and current_channel (called channel in server.rs), which
server.rs compares by channel name.  The immutable id is the key of the
registry and the address is kept as a string.  The sink is abstracted by the
boolean sinkOk: writes to this participant succeed exactly when it is true. -/
structure User where
  nickname : Option Str
  username : Option Str
  is_registered : Bool
  is_away : Bool
  channel : Option Str
  address : Str
  sinkOk : Bool
deriving DecidableEq

/-- Modelled from the spec: User::new of the missing src/user.rs.  Section 3
of the spec: created at accept with no nickname, no username, not registered,
not away, in no channel. -/
def User.fresh (address : Str) : User :=
  { nickname := none, username := none, is_registered := false, is_away := false,
    channel := none, address := address, sinkOk := true }

/-- Modelled from the spec: User::prefix of the missing src/user.rs.  The
canonical participant source is nickname!username@address (spec sections 4.5
and 6); server.rs line 567 relies on it being Some exactly when both nickname
and username have been set. -/
def User.pfx (u : User) : Option Str :=
  match u.nickname, u.username with
  | some n, some un => some (n ++ '!' :: un ++ '@' :: u.address)
  | _, _ => none

/-- One delivered line: either a numeric Response (source, code, parameters)
or a Message line; serialization to bytes is left at the wire codec. -/
inductive Line where
  | resp (src : Str) (code : Nat) (ps : List Str)
  | msg (m : Message)
deriving DecidableEq

/-- A successful socket write: recipient id paired with the line written. -/
abbrev Output := Nat × Line

/-- The two shared registries (UserTable and ChannelTable of server.rs).  The
user table is an association list from participant id to record; the channel
table keeps only channel names, since a Channel record is exactly its name
and server.rs compares channels by name. -/
structure ServerState where
  users : List (Nat × User)
  channels : List Str
deriving DecidableEq

/-- Embedding of DashMap::get on the user table. -/
def lookup : List (Nat × User) → Nat → Option User
  | [], _ => none
  | (i, u) :: rest, id => if i = id then some u else lookup rest id

/-- Embedding of DashMap::get_mut followed by a field update. -/
def updateUser : List (Nat × User) → Nat → (User → User) → List (Nat × User)
  | [], _, _ => []
  | (i, u) :: rest, id, f => if i = id then (i, f u) :: rest else (i, u) :: updateUser rest id f

/-- Embedding of DashMap::remove on the user table. -/
def removeUser : List (Nat × User) → Nat → List (Nat × User)
  | [], _ => []
  | (i, u) :: rest, id => if i = id then rest else (i, u) :: removeUser rest id

/-- Embedding of ChannelTable entry().or_insert() (server.rs lines 353-356):
resolve the channel or create it. -/
def insertChannel (chs : List Str) (name : Str) : List Str :=
  if name ∈ chs then chs else chs ++ [name]

/-- Embedding of nickname_in_use (server.rs lines 666-677): scan every user,
including the caller. -/
def nicknameInUse (nm : Str) : List (Nat × User) → Bool
  | [] => false
  | (_, u) :: rest => if u.nickname = some nm then true else nicknameInUse nm rest

/-- Embedding of get_nickname_id (server.rs lines 679-691). -/
def getNicknameId (nm : Str) : List (Nat × User) → Option Nat
  | [] => none
  | (i, u) :: rest => if u.nickname = some nm then some i else getNicknameId nm rest

/-- Embedding of send_to_user (server.rs lines 592-602): error when the id is
absent or the write fails, otherwise one delivered output. -/
def sendToUser (users : List (Nat × User)) (id : Nat) (l : Line) : Except Unit (List Output) :=
  match lookup users id with
  | none => .error ()
  | some u => if u.sinkOk then .ok [(id, l)] else .error ()

/-- Embedding of send_to_channel (server.rs lines 605-625): iterate the user
table and write to every member of the channel except the excluded id.  The
question-mark on write_all makes the first failed write abort the loop: the
result is the outputs delivered so far and false. -/
def sendToChannel (m : Message) : List (Nat × User) → Str → Nat → List Output × Bool
  | [], _, _ => ([], true)
  | (i, u) :: rest, ch, ex =>
    if i ≠ ex ∧ u.channel = some ch then
      if u.sinkOk then
        ((i, Line.msg m) :: (sendToChannel m rest ch ex).1, (sendToChannel m rest ch ex).2)
      else ([], false)
    else sendToChannel m rest ch ex

/-- Embedding of broadcast_message (server.rs lines 628-647): write to every
user except the excluded id; the first failed write aborts the loop. -/
def broadcastMessage (m : Message) : List (Nat × User) → Nat → List Output × Bool
  | [], _ => ([], true)
  | (i, u) :: rest, ex =>
    if i ≠ ex then
      if u.sinkOk then
        ((i, Line.msg m) :: (broadcastMessage m rest ex).1, (broadcastMessage m rest ex).2)
      else ([], false)
    else broadcastMessage m rest ex

/-- Embedding of broadcast_to_all (server.rs lines 650-664): write to every
user; the first failed write aborts the loop. -/
def broadcastToAll (m : Message) : List (Nat × User) → List Output × Bool
  | [] => ([], true)
  | (i, u) :: rest =>
    if u.sinkOk then
      ((i, Line.msg m) :: (broadcastToAll m rest).1, (broadcastToAll m rest).2)
    else ([], false)

/-- Result of one dispatch, the CommandResponse of server.rs extended with
the Err case of the Result (logged by the session loop, which continues). -/
inductive DispatchResult where
  | cont | quit | err
deriving DecidableEq

/-- Commands a not-yet-registered participant may use (server.rs lines
109-113). -/
def allowedPreReg : Command → Bool
  | .user => true
  | .nick => true
  | .quit => true
  | _ => false

/-- Helper for a handler arm that replies to the caller: on write failure the
question-mark aborts the handler with Err; otherwise the given early result
(some Continue for a return, none to fall through to the registration check)
stands. -/
def replyStep (st : ServerState) (uid : Nat) (l : Line) (after : Option DispatchResult) :
    ServerState × List Output × Option DispatchResult :=
  match sendToUser st.users uid l with
  | .ok outs => (st, outs, after)
  | .error _ => (st, [], some .err)

/-- Reply codes used by the dispatcher, by their RFC 1459 numbers. -/
def RPL_WELCOME : Nat := 1
def RPL_AWAY : Nat := 301
def RPL_UNAWAY : Nat := 305
def RPL_NOWAWAY : Nat := 306
def RPL_LIST : Nat := 322
def RPL_LISTEND : Nat := 323
def ERR_NOSUCHNICK : Nat := 401
def ERR_NOSUCHCHANNEL : Nat := 403
def ERR_CANNOTSENDTOCHAN : Nat := 404
def ERR_NORECIPIENT : Nat := 411
def ERR_UNKNOWNCOMMAND : Nat := 421
def ERR_NONICKNAMEGIVEN : Nat := 431
def ERR_NICKNAMEINUSE : Nat := 433
def ERR_USERNOTINCHANNEL : Nat := 441
def ERR_NOTONCHANNEL : Nat := 442
def ERR_NOTREGISTERED : Nat := 451
def ERR_NEEDMOREPARAMS : Nat := 461
def ERR_ALREADYREGISTRED : Nat := 462

/-- Decimal rendering of the member count sent by LIST. -/
def natToChars (n : Nat) : Str := (Nat.repr n).toList

/-- Member count of one channel for LIST (server.rs lines 527-534): a linear
scan of the user table. -/
def countMembers (users : List (Nat × User)) (ch : Str) : Nat :=
  (users.filter (fun e => e.2.channel = some ch)).length

/-- The LIST loop (server.rs lines 525-543): one RPL_LIST with the channel
name and its member count per channel, sent to the caller; a failed send
aborts the handler. -/
def listLoop (sp : Str) (users : List (Nat × User)) (uid : Nat) : List Str → List Output × Bool
  | [] => ([], true)
  | c :: rest =>
    match sendToUser users uid (Line.resp sp RPL_LIST [c, natToChars (countMembers users c)]) with
    | .error _ => ([], false)
    | .ok o => (o ++ (listLoop sp users uid rest).1, (listLoop sp users uid rest).2)

/-- Embedding of the command match of handle_message (server.rs lines
125-560).  The message passed here already carries the participant source set
at lines 92-102.  The third component is some result for an early return
(Continue, Quit or a propagated Err) and none when the arm falls through to
the registration check at lines 562-586.  An unwrap or ok_or failure on a
user id is modelled as Err. -/
def dispatchCore (msg : Message) (st : ServerState) (uid : Nat) (sp : Str) :
    ServerState × List Output × Option DispatchResult :=
  match msg.command with
  | .user =>
    match msg.params.head? with
    | none =>
      replyStep st uid (Line.resp sp ERR_NONICKNAMEGIVEN ["No nickname was given.".toList])
        (some .cont)
    | some username =>
      match lookup st.users uid with
      | none => (st, [], some .err)
      | some u =>
        if u.is_registered then
          replyStep st uid (Line.resp sp ERR_ALREADYREGISTRED
            ["Cannot send USER message since the client is already registered.".toList])
            (some .cont)
        else
          ({ st with users := updateUser st.users uid (fun v => { v with username := some username }) },
            [], none)
  | .nick =>
    match msg.params.head? with
    | none =>
      replyStep st uid (Line.resp sp ERR_NONICKNAMEGIVEN ["No nickname was given.".toList])
        (some .cont)
    | some nickname =>
      if nicknameInUse nickname st.users then
        replyStep st uid (Line.resp sp ERR_NICKNAMEINUSE ["Nickname is already in use.".toList])
          (some .cont)
      else
        match lookup st.users uid with
        | none => (st, [], some .err)
        | some u =>
          let users1 := updateUser st.users uid (fun v => { v with nickname := some nickname })
          if u.is_registered then
            ({ st with users := users1 }, (broadcastToAll msg users1).1,
              if (broadcastToAll msg users1).2 then none else some .err)
          else ({ st with users := users1 }, [], none)
  | .away =>
    match lookup st.users uid with
    | none => (st, [], some .err)
    | some u =>
      let st1 : ServerState :=
        { st with users := updateUser st.users uid (fun v => { v with is_away := !v.is_away }) }
      if !u.is_away then
        replyStep st1 uid (Line.resp sp RPL_NOWAWAY ["You are now away.".toList]) none
      else
        replyStep st1 uid (Line.resp sp RPL_UNAWAY ["You are no longer away.".toList]) none
  | .privMsg =>
    if msg.params.length ≠ 2 then
      replyStep st uid (Line.resp sp ERR_NORECIPIENT
        ["No recipient for the message was given.".toList]) (some .cont)
    else
      match msg.params.head? with
      | none => (st, [], some .err)
      | some recipient =>
        if recipient.head? ≠ some '#' then
          match getNicknameId recipient st.users with
          | some nid =>
            match lookup st.users nid with
            | none => (st, [], some .err)
            | some ru =>
              if ru.is_away then
                match sendToUser st.users uid (Line.resp sp RPL_AWAY
                    [recipient, "The recipient is marked as away.".toList]) with
                | .error _ => (st, [], some .err)
                | .ok o1 =>
                  match sendToUser st.users nid (Line.msg msg) with
                  | .error _ => (st, o1, some .err)
                  | .ok o2 => (st, o1 ++ o2, none)
              else
                match sendToUser st.users nid (Line.msg msg) with
                | .error _ => (st, [], some .err)
                | .ok o2 => (st, o2, none)
          | none =>
            replyStep st uid (Line.resp sp ERR_NOSUCHNICK
              ["The given nick was not found.".toList]) none
        else
          if recipient ∈ st.channels then
            match lookup st.users uid with
            | none => (st, [], some .err)
            | some u =>
              if u.channel = some recipient then
                ((st : ServerState), (sendToChannel msg st.users recipient uid).1,
                  if (sendToChannel msg st.users recipient uid).2 then none else some .err)
              else
                replyStep st uid (Line.resp sp ERR_CANNOTSENDTOCHAN
                  ["You are not in that channel.".toList]) (some .cont)
          else
            replyStep st uid (Line.resp sp ERR_NOSUCHCHANNEL
              ["The given channel was not found.".toList]) (some .cont)
  | .quit =>
    match sendToUser st.users uid
        (Line.msg (Message.mk (some sp) .error ["User disconnected.".toList])) with
    | .error _ => (st, [], some .err)
    | .ok o1 =>
      match lookup st.users uid with
      | none => (st, o1, some .err)
      | some u =>
        if u.is_registered then
          (st, o1 ++ (broadcastMessage msg st.users uid).1,
            some (if (broadcastMessage msg st.users uid).2 then .quit else .err))
        else (st, o1, some .quit)
  | .unknown =>
    replyStep st uid (Line.resp sp ERR_UNKNOWNCOMMAND ["Unknown command.".toList]) none
  | .join =>
    match msg.params.head? with
    | none =>
      replyStep st uid (Line.resp sp ERR_NEEDMOREPARAMS
        ["Specify which channel to join.".toList]) (some .cont)
    | some channelName =>
      let channels1 := insertChannel st.channels channelName
      match lookup st.users uid with
      | none => ({ st with channels := channels1 }, [], some .err)
      | some _ =>
        let users1 := updateUser st.users uid (fun v => { v with channel := some channelName })
        ({ users := users1, channels := channels1 },
          (sendToChannel msg users1 channelName uid).1,
          if (sendToChannel msg users1 channelName uid).2 then none else some .err)
  | .part =>
    match msg.params.head? with
    | none =>
      replyStep st uid (Line.resp sp ERR_NEEDMOREPARAMS
        ["Specify which channel to leave.".toList]) (some .cont)
    | some channelName =>
      if channelName ∈ st.channels then
        match lookup st.users uid with
        | none => (st, [], some .err)
        | some u =>
          if u.channel = some channelName then
            let users1 := updateUser st.users uid (fun v => { v with channel := none })
            ({ st with users := users1 }, (sendToChannel msg users1 channelName uid).1,
              if (sendToChannel msg users1 channelName uid).2 then none else some .err)
          else
            replyStep st uid (Line.resp sp ERR_NOTONCHANNEL
              ["You are not in that channel.".toList]) (some .cont)
      else
        replyStep st uid (Line.resp sp ERR_NOSUCHCHANNEL
          ["The given channel was not found.".toList]) (some .cont)
  | .kick =>
    match msg.params.head? with
    | none =>
      replyStep st uid (Line.resp sp ERR_NEEDMOREPARAMS
        ["Specify a channel and user to kick.".toList]) (some .cont)
    | some channelName =>
      match msg.params[1]? with
      | none =>
        replyStep st uid (Line.resp sp ERR_NEEDMOREPARAMS
          ["Specify a user to kick.".toList]) (some .cont)
      | some targetNick =>
        if channelName ∈ st.channels then
          match lookup st.users uid with
          | none => (st, [], some .err)
          | some u =>
            if u.channel = some channelName then
              match getNicknameId targetNick st.users with
              | none =>
                replyStep st uid (Line.resp sp ERR_NOSUCHNICK
                  ["The given user was not found.".toList]) (some .cont)
              | some tid =>
                match lookup st.users tid with
                | none => (st, [], some .err)
                | some tu =>
                  if tu.channel = some channelName then
                    if (sendToChannel msg st.users channelName uid).2 then
                      ({ st with users := updateUser st.users tid (fun v => { v with channel := none }) },
                        (sendToChannel msg st.users channelName uid).1, none)
                    else (st, (sendToChannel msg st.users channelName uid).1, some .err)
                  else
                    replyStep st uid (Line.resp sp ERR_USERNOTINCHANNEL
                      ["That user is not in the channel.".toList]) (some .cont)
            else
              replyStep st uid (Line.resp sp ERR_NOTONCHANNEL
                ["You are not in that channel.".toList]) (some .cont)
        else
          replyStep st uid (Line.resp sp ERR_NOSUCHCHANNEL
            ["The given channel was not found.".toList]) (some .cont)
  | .list =>
    if (listLoop sp st.users uid st.channels).2 then
      match sendToUser st.users uid (Line.resp sp RPL_LISTEND ["End of LIST".toList]) with
      | .ok o => (st, (listLoop sp st.users uid st.channels).1 ++ o, none)
      | .error _ => (st, (listLoop sp st.users uid st.channels).1, some .err)
    else (st, (listLoop sp st.users uid st.channels).1, some .err)
  | .ping =>
    replyStep st uid (Line.msg (Message.mk (some sp) .pong [sp])) none
  | .pong => (st, [], none)
  | .error => (st, [], none)

/-- Embedding of the registration check of handle_message (server.rs lines
562-586): if the participant is not yet registered and its source is now
complete, mark it registered and write the RPL_WELCOME line directly to its
stream (a failed write propagates Err after the flag was already set). -/
def regCheck (st : ServerState) (uid : Nat) : ServerState × List Output × DispatchResult :=
  match lookup st.users uid with
  | none => (st, [], .err)
  | some u =>
    match u.pfx, u.nickname with
    | some p, some n =>
      if u.is_registered then (st, [], .cont)
      else
        let st1 : ServerState :=
          { st with users := updateUser st.users uid (fun v => { v with is_registered := true }) }
        if u.sinkOk then
          (st1, [(uid, Line.resp p RPL_WELCOME
            [n, "Welcome to the Internet Relay Network ".toList ++ p])], .cont)
        else (st1, [], .err)
    | _, _ => (st, [], .cont)

/-- Embedding of handle_message (server.rs lines 84-589): read the caller
record, rewrite the message source to the caller (lines 92-102), refuse
commands other than USER, NICK, QUIT before registration (lines 108-122),
dispatch the command, then run the registration check unless the arm
returned early. -/
def handleMessage (msg0 : Message) (st : ServerState) (uid : Nat) (sp : Str) :
    ServerState × List Output × DispatchResult :=
  match lookup st.users uid with
  | none => (st, [], .err)
  | some u0 =>
    let msg : Message := { msg0 with pfx := u0.pfx }
    if u0.is_registered = false ∧ allowedPreReg msg.command = false then
      match sendToUser st.users uid
          (Line.resp sp ERR_NOTREGISTERED ["You have not registered.".toList]) with
      | .ok outs => (st, outs, .cont)
      | .error _ => (st, [], .err)
    else
      match dispatchCore msg st uid sp with
      | (st1, outs, some r) => (st1, outs, r)
      | (st1, outs, none) =>
        ((regCheck st1 uid).1, outs ++ (regCheck st1 uid).2.1, (regCheck st1 uid).2.2)

/-- How the session loop of handle_connection ends. -/
inductive SessionEnd where
  /-- The dispatcher returned Quit: the loop breaks and the participant is
  removed from the registry (server.rs lines 74 and 81). -/
  | quitExit
  /-- An expect panicked (a failed reply write at server.rs line 68): the
  thread dies and the removal at line 81 never runs. -/
  | panicked
  /-- The given input is exhausted and the loop is blocked on the next read. -/
  | pending
deriving DecidableEq

/-- Embedding of the session loop of handle_connection (server.rs lines
43-82) over a list of reads.  Each chunk is the UTF-8 content of the read
buffer after NUL stripping (lines 47-55); a zero-length read (EOF) therefore
appears as the empty chunk.  A parse failure is answered with
ERR_UNKNOWNCOMMAND carrying the parser message (lines 59-71), where a failed
write panics via expect; a dispatch Err is logged and the loop continues
(line 76); Quit breaks the loop and removes the participant (line 81). -/
def handleConnection (st : ServerState) (uid : Nat) (sp : Str) :
    List Str → ServerState × List Output × SessionEnd
  | [] => (st, [], .pending)
  | chunk :: rest =>
    match parseMsg chunk with
    | .error _ =>
      match sendToUser st.users uid (Line.resp sp ERR_UNKNOWNCOMMAND
          ["Input string does not contain a command.".toList]) with
      | .ok outs =>
        ((handleConnection st uid sp rest).1, outs ++ (handleConnection st uid sp rest).2.1,
          (handleConnection st uid sp rest).2.2)
      | .error _ => (st, [], .panicked)
    | .ok m =>
      match handleMessage m st uid sp with
      | (st1, outs, .quit) => ({ st1 with users := removeUser st1.users uid }, outs, .quitExit)
      | (st1, outs, .cont) =>
        ((handleConnection st1 uid sp rest).1, outs ++ (handleConnection st1 uid sp rest).2.1,
          (handleConnection st1 uid sp rest).2.2)
      | (st1, outs, .err) =>
        ((handleConnection st1 uid sp rest).1, outs ++ (handleConnection st1 uid sp rest).2.1,
          (handleConnection st1 uid sp rest).2.2)

/-- The dispatch sequence of one session over already-parsed messages,
stopping at Quit exactly like the session loop; the registry removal that
follows the loop is not part of this fold. -/
def runSession (st : ServerState) (uid : Nat) (sp : Str) :
    List Message → ServerState × List Output
  | [] => (st, [])
  | m :: rest =>
    match handleMessage m st uid sp with
    | (st1, outs, .quit) => (st1, outs)
    | (st1, outs, .cont) => ((runSession st1 uid sp rest).1, outs ++ (runSession st1 uid sp rest).2)
    | (st1, outs, .err) => ((runSession st1 uid sp rest).1, outs ++ (runSession st1 uid sp rest).2)

/-- Does the line carry the RPL_WELCOME numeric? -/
def isWelcome : Line → Bool
  | .resp _ code _ => code = RPL_WELCOME
  | .msg _ => false

/-- Number of RPL_WELCOME lines delivered to the given participant. -/
def welcomeCount (uid : Nat) (outs : List Output) : Nat :=
  (outs.filter (fun o => decide (o.1 = uid) && isWelcome o.2)).length

/-- What one command-match arm guarantees about the caller record and its
outputs: the caller is still in the table, registration flag and sink are
untouched, a set nickname or username stays set, and no RPL_WELCOME was
delivered to the caller.  Only the registration check after the arm may
change the flag and emit the welcome. -/
def StepOk (u : User) (uid : Nat) (r : ServerState × List Output) : Prop :=
  ∃ u1, lookup r.1.users uid = some u1 ∧ u1.is_registered = u.is_registered ∧
    u1.sinkOk = u.sinkOk ∧ (u.nickname.isSome = true → u1.nickname.isSome = true) ∧
    (u.username.isSome = true → u1.username.isSome = true) ∧ welcomeCount uid r.2 = 0

/-- Pairwise nickname uniqueness of a user table: every record whose nickname
is set carries a nickname set on no later record (hence on no other record at
all). -/
def nickUniqueB : List (Nat × User) → Bool
  | [] => true
  | (_, u) :: rest =>
    (match u.nickname with
     | none => true
     | some nm => !nicknameInUse nm rest) && nickUniqueB rest


/-- Sample state for the claim C2 witness: one fresh unregistered user. -/
def c2State : ServerState :=
  { users := [(0, User.fresh "127.0.0.1".toList)], channels := [] }

/-- Registered user named a for the claim C1 counterexample. -/
def c1Alice : User :=
  { nickname := some "a".toList, username := some "au".toList, is_registered := true,
    is_away := false, channel := none, address := "h".toList, sinkOk := true }

/-- State for the claim C1 counterexample: only Alice is connected. -/
def c1State : ServerState := { users := [(0, c1Alice)], channels := [] }

/-- Fresh second participant for the claim C1 witness. -/
def c1Fresh : User := User.fresh "k".toList

/-- State for the claim C1 witness: registered Alice plus a fresh user. -/
def c1WitState : ServerState := { users := [(0, c1Alice), (1, c1Fresh)], channels := [] }

/-- State for the claim C3 witness: one fresh user. -/
def c3State : ServerState := ServerState.mk [(4, User.fresh "h".toList)] []


/-- A member of channel #c with a working sink, for claim C5. -/
def c5Member : User :=
  { nickname := some "m".toList, username := some "m".toList, is_registered := true,
    is_away := false, channel := some "#c".toList, address := "h".toList, sinkOk := true }

/-- A member of channel #c whose sink fails, for claim C5. -/
def c5Bad : User := { c5Member with sinkOk := false }

/-- User table for the claim C5 counterexample: the originator 1, the failing
member 2, and the healthy member 3, in that iteration order. -/
def c5Users : List (Nat × User) := [(1, c5Member), (2, c5Bad), (3, c5Member)]

/-- State for the claim C4 theorem: one fresh user with a working sink. -/
def c4State : ServerState := { users := [(0, User.fresh "a".toList)], channels := [] }

/-- Fresh user whose sink fails, for the claim C4 theorem. -/
def c4BadUser : User := { User.fresh "a".toList with sinkOk := false }

/-- State for the claim C4 theorem: one fresh user whose sink fails. -/
def c4StateBad : ServerState := { users := [(5, c4BadUser)], channels := [] }

/-- The welcome text of the RPL_WELCOME reply (server.rs line 582). -/
def welcomeText : Str := "Welcome to the Internet Relay Network ".toList

/-- Sample state for the claim C9 witness: a registered user with no
channel. -/
def c9State : ServerState := { users := [(7, c1Alice)], channels := [] }

/-- Two registered members of channel #a plus a registered member of #b, for
the claim C10 witness. -/
def c10Member (nm : Str) (ch : Str) : User :=
  { nickname := some nm, username := some nm, is_registered := true, is_away := false,
    channel := some ch, address := "h".toList, sinkOk := true }

/-- State for the claim C10 witness. -/
def c10State : ServerState :=
  { users := [(0, c10Member "a".toList "#a".toList), (1, c10Member "b".toList "#a".toList),
      (2, c10Member "c".toList "#b".toList)],
    channels := ["#a".toList, "#b".toList] }

/-- Claim C2.  A not-yet-registered participant issuing any command other
than USER, NICK or QUIT gets exactly the ERR_NOTREGISTERED reply, the result
is Continue, and neither registry changes at all. -/
theorem c2_unregistered_commands_rejected (st : ServerState) (uid : Nat) (u : User) (sp : Str)
    (msg : Message) (hu : lookup st.users uid = some u) (hreg : u.is_registered = false)
    (hs : u.sinkOk = true) (hcmd : allowedPreReg msg.command = false) :
    handleMessage msg st uid sp =
      (st, [(uid, Line.resp sp ERR_NOTREGISTERED ["You have not registered.".toList])],
        .cont) := by
  unfold handleMessage
  rw [hu]
  simp only [hreg, hcmd]
  simp [sendToUser, hu, hs]

/-- Witness for claim C2 at a concrete state and a JOIN command. -/
theorem c2_witness :
    handleMessage (Message.mk none .join ["#a".toList]) c2State 0 "srv".toList =
      (c2State, [(0, Line.resp "srv".toList ERR_NOTREGISTERED
        ["You have not registered.".toList])], .cont) :=
  c2_unregistered_commands_rejected c2State 0 (User.fresh "127.0.0.1".toList) "srv".toList
    (Message.mk none .join ["#a".toList]) (by decide) (by decide) (by decide) (by decide)

/-- Counterexample to claim C1 as stated.  No participant other than the
requester holds the nickname a, so the claim requires the NICK to succeed;
the code replies ERR_NICKNAMEINUSE instead, because nickname_in_use also
scans the requester itself. -/
theorem c1_counterexample :
    (∀ e ∈ c1State.users, e.1 ≠ 0 → e.2.nickname ≠ some "a".toList) ∧
    handleMessage (Message.mk none .nick ["a".toList]) c1State 0 "srv".toList =
      (c1State, [(0, Line.resp "srv".toList ERR_NICKNAMEINUSE
        ["Nickname is already in use.".toList])], .cont) := by decide

/-- Counterexample to claim C5 as stated.  User 3 is a member of #c distinct
from the excluded originator with a working sink, yet the fan-out delivers
nothing at all: the failed write to user 2 aborts the loop. -/
theorem c5_counterexample :
    sendToChannel (Message.mk none .privMsg ["#c".toList, "hi".toList]) c5Users "#c".toList 1 =
      ([], false) ∧
    (3, c5Member) ∈ c5Users ∧ c5Member.channel = some "#c".toList ∧
    c5Member.sinkOk = true ∧ (3 : Nat) ≠ 1 := by decide

/-- Claim C4 evaluated at its failing input.  A zero-length read (EOF,
content empty after NUL stripping) does not terminate the loop: the empty
buffer is parsed as a malformed line, answered with ERR_UNKNOWNCOMMAND, and
the loop keeps reading, the participant still registered in the table; when
that reply write fails the thread panics and the removal never runs.  By
contrast a QUIT does exit the loop and does remove the participant. -/
theorem c4_eof_behavior :
    handleConnection c4State 0 "srv".toList [[]] =
      (c4State, [(0, Line.resp "srv".toList ERR_UNKNOWNCOMMAND
        ["Input string does not contain a command.".toList])], .pending) ∧
    handleConnection c4StateBad 5 "srv".toList [[]] = (c4StateBad, [], .panicked) ∧
    lookup c4StateBad.users 5 = some c4BadUser ∧
    (handleConnection c4State 0 "srv".toList ["QUIT".toList]).2.2 = .quitExit ∧
    lookup (handleConnection c4State 0 "srv".toList ["QUIT".toList]).1.users 0 = none := by decide

/-- Counterexample to claim C6 as stated.  The line JOIN a : is produced by
the serializer (from the parameters a and a lone colon); its parse has
parameters a and the empty trailing parameter, but serializing that parse
and parsing again drops the empty parameter, so the fields differ. -/
theorem c6_counterexample :
    toIrc (Message.mk none .join ["a".toList, ":".toList]) = "JOIN a :\r\n".toList ∧
    parseMsg "JOIN a :\r\n".toList = .ok (Message.mk none .join ["a".toList, []]) ∧
    parseMsg (toIrc (Message.mk none .join ["a".toList, []])) =
      .ok (Message.mk none .join ["a".toList]) ∧
    (["a".toList] : List Str) ≠ ["a".toList, []] := by decide

/-- Counterexample to claim C7 as stated: the empty token between the two
spaces is kept, so the parameters are the empty string and #a, not just
#a. -/
theorem c7_counterexample :
    parseMsg "join  #a".toList = .ok (Message.mk none .join [[], "#a".toList]) ∧
    ([([] : Str), "#a".toList] : List Str) ≠ ["#a".toList] := by decide

/-- Claim C7 as amended: parsing join followed by two spaces and #a yields
command JOIN and the two parameters empty-string and #a; empty tokens
produced by consecutive spaces are kept, not skipped. -/
theorem c7_amended_empty_token_kept :
    parseMsg "join  #a".toList = .ok (Message.mk none .join [[], "#a".toList]) := by decide

theorem lookup_updateUser_self (us : List (Nat × User)) (id : Nat) (f : User → User) :
    lookup (updateUser us id f) id = Option.map f (lookup us id) := by
  induction us with
  | nil => rfl
  | cons e rest ih =>
    obtain ⟨i, u⟩ := e
    by_cases h : i = id <;> simp [updateUser, lookup, h, ih]

theorem lookup_updateUser_ne (us : List (Nat × User)) (id : Nat) (f : User → User) (j : Nat)
    (h : j ≠ id) : lookup (updateUser us id f) j = lookup us j := by
  induction us with
  | nil => rfl
  | cons e rest ih =>
    obtain ⟨i, u⟩ := e
    by_cases hi : i = id
    · subst hi
      simp [updateUser, lookup, Ne.symm h]
    · simp [updateUser, lookup, hi, ih]

theorem mem_updateUser_ne (us : List (Nat × User)) (id : Nat) (f : User → User) (j : Nat)
    (w : User) (hm : (j, w) ∈ updateUser us id f) (h : j ≠ id) : (j, w) ∈ us := by
  induction us with
  | nil => simp [updateUser] at hm
  | cons e rest ih =>
    obtain ⟨i, u⟩ := e
    by_cases hi : i = id
    · subst hi
      simp only [updateUser, if_pos rfl] at hm
      rcases List.mem_cons.1 hm with h1 | h1
      · rw [Prod.mk.injEq] at h1
        exact absurd h1.1 h
      · exact List.mem_cons_of_mem _ h1
    · simp only [updateUser, if_neg hi] at hm
      rcases List.mem_cons.1 hm with h1 | h1
      · exact h1 ▸ List.mem_cons_self _ _
      · exact List.mem_cons_of_mem _ (ih h1)

theorem lookup_of_mem_nodup (us : List (Nat × User)) (hnd : (us.map Prod.fst).Nodup)
    (i : Nat) (u : User) (hm : (i, u) ∈ us) : lookup us i = some u := by
  induction us with
  | nil => cases hm
  | cons e rest ih =>
    obtain ⟨j, w⟩ := e
    simp only [List.map_cons, List.nodup_cons] at hnd
    rcases List.mem_cons.1 hm with h1 | h1
    · rw [Prod.mk.injEq] at h1
      obtain ⟨rfl, rfl⟩ := h1
      simp [lookup]
    · have hji : j ≠ i := by
        intro he
        refine hnd.1 ?_
        rw [he]
        simpa using List.mem_map_of_mem Prod.fst h1
      simp [lookup, hji, ih hnd.2 h1]

theorem mem_insertChannel_self (chs : List Str) (name : Str) : name ∈ insertChannel chs name := by
  unfold insertChannel
  by_cases h : name ∈ chs <;> simp [h]

theorem mem_insertChannel_of_mem (chs : List Str) (name x : Str) (h : x ∈ chs) :
    x ∈ insertChannel chs name := by
  unfold insertChannel
  by_cases hn : name ∈ chs <;> simp [hn, h]

theorem sendToChannel_outs (m : Message) (us : List (Nat × User)) (ch : Str) (ex : Nat) :
    ∀ o ∈ (sendToChannel m us ch ex).1,
      o.2 = Line.msg m ∧ o.1 ≠ ex ∧ ∃ w, (o.1, w) ∈ us ∧ w.channel = some ch := by
  induction us with
  | nil => intro o ho; cases ho
  | cons e rest ih =>
    obtain ⟨i, u⟩ := e
    intro o ho
    by_cases h : i ≠ ex ∧ u.channel = some ch
    · rw [sendToChannel, if_pos h] at ho
      cases hs : u.sinkOk with
      | true =>
        rw [hs, if_pos rfl] at ho
        rcases List.mem_cons.1 ho with h1 | h1
        · subst h1
          exact ⟨rfl, h.1, u, List.mem_cons_self _ _, h.2⟩
        · obtain ⟨h2, h3, w, hw, hc⟩ := ih o h1
          exact ⟨h2, h3, w, List.mem_cons_of_mem _ hw, hc⟩
      | false =>
        rw [hs] at ho
        simp at ho
    · rw [sendToChannel, if_neg h] at ho
      obtain ⟨h2, h3, w, hw, hc⟩ := ih o ho
      exact ⟨h2, h3, w, List.mem_cons_of_mem _ hw, hc⟩

theorem regCheck_registered (st : ServerState) (uid : Nat) (u : User)
    (hu : lookup st.users uid = some u) (hreg : u.is_registered = true) :
    regCheck st uid = (st, [], .cont) := by
  unfold regCheck
  rw [hu]
  rcases hn : u.nickname with _ | n <;> rcases hm : u.username with _ | un <;>
    simp [User.pfx, hn, hm, hreg]

theorem regCheck_no_pfx (st : ServerState) (uid : Nat) (u : User)
    (hu : lookup st.users uid = some u) (hp : u.pfx = none) :
    regCheck st uid = (st, [], .cont) := by
  unfold regCheck
  rw [hu]
  rcases hn : u.nickname with _ | n <;> rcases hm : u.username with _ | un <;>
    simp [User.pfx, hn, hm] at hp ⊢

theorem regCheck_fires (st : ServerState) (uid : Nat) (u : User) (p n : Str)
    (hu : lookup st.users uid = some u) (hreg : u.is_registered = false)
    (hp : u.pfx = some p) (hn : u.nickname = some n) (hs : u.sinkOk = true) :
    regCheck st uid =
      ({ st with users := updateUser st.users uid (fun v => { v with is_registered := true }) },
        [(uid, Line.resp p RPL_WELCOME [n, welcomeText ++ p])], .cont) := by
  unfold regCheck
  rw [hu]
  simp [hp, hn, hreg, hs, welcomeText]

theorem regCheck_fires_badsink (st : ServerState) (uid : Nat) (u : User) (p n : Str)
    (hu : lookup st.users uid = some u) (hreg : u.is_registered = false)
    (hp : u.pfx = some p) (hn : u.nickname = some n) (hs : u.sinkOk = false) :
    regCheck st uid =
      ({ st with users := updateUser st.users uid (fun v => { v with is_registered := true }) },
        [], .err) := by
  unfold regCheck
  rw [hu]
  simp [hp, hn, hreg, hs]

theorem handleMessage_bypass_gate (msg0 : Message) (st : ServerState) (uid : Nat) (sp : Str)
    (u0 : User) (hu : lookup st.users uid = some u0)
    (hby : u0.is_registered = true ∨ allowedPreReg msg0.command = true) :
    handleMessage msg0 st uid sp =
      (match dispatchCore { msg0 with pfx := u0.pfx } st uid sp with
       | (st1, outs, some r) => (st1, outs, r)
       | (st1, outs, none) =>
         ((regCheck st1 uid).1, outs ++ (regCheck st1 uid).2.1, (regCheck st1 uid).2.2)) := by
  unfold handleMessage
  rw [hu]
  rcases hby with h | h <;> simp [h]

theorem handleMessage_early (msg0 : Message) (st : ServerState) (uid : Nat) (sp : Str)
    (u0 : User) (st1 : ServerState) (outs : List Output) (r : DispatchResult)
    (hu : lookup st.users uid = some u0)
    (hby : u0.is_registered = true ∨ allowedPreReg msg0.command = true)
    (hd : dispatchCore { msg0 with pfx := u0.pfx } st uid sp = (st1, outs, some r)) :
    handleMessage msg0 st uid sp = (st1, outs, r) := by
  rw [handleMessage_bypass_gate msg0 st uid sp u0 hu hby, hd]

theorem handleMessage_fall (msg0 : Message) (st : ServerState) (uid : Nat) (sp : Str)
    (u0 : User) (st1 : ServerState) (outs : List Output)
    (hu : lookup st.users uid = some u0)
    (hby : u0.is_registered = true ∨ allowedPreReg msg0.command = true)
    (hd : dispatchCore { msg0 with pfx := u0.pfx } st uid sp = (st1, outs, none)) :
    handleMessage msg0 st uid sp =
      ((regCheck st1 uid).1, outs ++ (regCheck st1 uid).2.1, (regCheck st1 uid).2.2) := by
  rw [handleMessage_bypass_gate msg0 st uid sp u0 hu hby, hd]

theorem dispatchCore_join (pv : Option Str) (name : Str) (more : List Str) (st : ServerState)
    (uid : Nat) (sp : Str) (u : User) (hu : lookup st.users uid = some u) :
    dispatchCore (Message.mk pv .join (name :: more)) st uid sp =
      (ServerState.mk (updateUser st.users uid (fun v => { v with channel := some name }))
        (insertChannel st.channels name),
       (sendToChannel (Message.mk pv .join (name :: more))
         (updateUser st.users uid (fun v => { v with channel := some name })) name uid).1,
       if (sendToChannel (Message.mk pv .join (name :: more))
            (updateUser st.users uid (fun v => { v with channel := some name })) name uid).2
       then none else some .err) := by
  unfold dispatchCore
  simp [hu]

/-- Claim C9.  A JOIN from a registered participant with a first parameter is
accepted without any well-formedness check on the channel name: for every
name, including names not beginning with a hash, a channel of exactly that
name ends up in the channel registry, it becomes the callers current
channel, and every line written is a relayed message line, never an error
reply. -/
theorem c9_join_accepts_any_name (st : ServerState) (uid : Nat) (u : User) (sp : Str)
    (p0 : Option Str) (name : Str) (more : List Str)
    (hu : lookup st.users uid = some u) (hreg : u.is_registered = true) :
    name ∈ (handleMessage (Message.mk p0 .join (name :: more)) st uid sp).1.channels ∧
    (∃ u', lookup (handleMessage (Message.mk p0 .join (name :: more)) st uid sp).1.users uid =
      some u' ∧ u'.channel = some name) ∧
    (∀ o ∈ (handleMessage (Message.mk p0 .join (name :: more)) st uid sp).2.1,
      ∃ mm, o.2 = Line.msg mm) := by
  have hjoin := dispatchCore_join u.pfx name more st uid sp u hu
  have hu1 : lookup (updateUser st.users uid (fun v => { v with channel := some name })) uid =
      some { u with channel := some name } := by
    rw [lookup_updateUser_self, hu]
    rfl
  have houts := sendToChannel_outs (Message.mk u.pfx .join (name :: more))
    (updateUser st.users uid (fun v => { v with channel := some name })) name uid
  cases hb : (sendToChannel (Message.mk u.pfx .join (name :: more))
      (updateUser st.users uid (fun v => { v with channel := some name })) name uid).2 with
  | false =>
    rw [hb] at hjoin
    rw [handleMessage_early _ _ _ _ u _ _ .err hu (Or.inl hreg) hjoin]
    refine ⟨mem_insertChannel_self st.channels name, ⟨{ u with channel := some name }, hu1, rfl⟩, ?_⟩
    intro o ho
    exact ⟨_, (houts o ho).1⟩
  | true =>
    rw [hb] at hjoin
    rw [handleMessage_fall _ _ _ _ u _ _ hu (Or.inl hreg) hjoin]
    have hrc := regCheck_registered
      (ServerState.mk (updateUser st.users uid (fun v => { v with channel := some name }))
        (insertChannel st.channels name)) uid { u with channel := some name } hu1 hreg
    rw [hrc]
    refine ⟨mem_insertChannel_self st.channels name, ⟨{ u with channel := some name }, hu1, rfl⟩, ?_⟩
    intro o ho
    rw [List.append_nil] at ho
    exact ⟨_, (houts o ho).1⟩

/-- Witness for claim C9 at a concrete state and the hashless name general. -/
theorem c9_witness :
    "general".toList ∈
      (handleMessage (Message.mk none .join ["general".toList]) c9State 7 "srv".toList).1.channels ∧
    (∃ u', lookup
        (handleMessage (Message.mk none .join ["general".toList]) c9State 7 "srv".toList).1.users 7 =
      some u' ∧ u'.channel = some "general".toList) ∧
    (∀ o ∈ (handleMessage (Message.mk none .join ["general".toList]) c9State 7 "srv".toList).2.1,
      ∃ mm, o.2 = Line.msg mm) :=
  c9_join_accepts_any_name c9State 7 c1Alice "srv".toList none "general".toList []
    (by decide) (by decide)

/-- Claim C10.  For a registered participant currently in channel A, a JOIN
of a different channel B only overwrites its current channel: the caller
record now points at B, channel A stays in the registry, every other
participant record is untouched, and no line at all is delivered to any
participant whose current channel is A. -/
theorem c10_join_overwrite_frame (st : ServerState) (uid : Nat) (u : User) (sp : Str)
    (p0 : Option Str) (chA chB : Str) (more : List Str)
    (hnd : (st.users.map Prod.fst).Nodup)
    (hu : lookup st.users uid = some u) (hreg : u.is_registered = true)
    (_hcur : u.channel = some chA) (hne : chB ≠ chA) (hchA : chA ∈ st.channels) :
    (∃ u', lookup (handleMessage (Message.mk p0 .join (chB :: more)) st uid sp).1.users uid =
      some u' ∧ u'.channel = some chB) ∧
    chA ∈ (handleMessage (Message.mk p0 .join (chB :: more)) st uid sp).1.channels ∧
    (∀ v, v ≠ uid →
      lookup (handleMessage (Message.mk p0 .join (chB :: more)) st uid sp).1.users v =
        lookup st.users v) ∧
    (∀ o ∈ (handleMessage (Message.mk p0 .join (chB :: more)) st uid sp).2.1,
      ∀ w, lookup st.users o.1 = some w → w.channel ≠ some chA) := by
  have hjoin := dispatchCore_join u.pfx chB more st uid sp u hu
  have hu1 : lookup (updateUser st.users uid (fun v => { v with channel := some chB })) uid =
      some { u with channel := some chB } := by
    rw [lookup_updateUser_self, hu]
    rfl
  have houts := sendToChannel_outs (Message.mk u.pfx .join (chB :: more))
    (updateUser st.users uid (fun v => { v with channel := some chB })) chB uid
  have hframe : ∀ v, v ≠ uid →
      lookup (updateUser st.users uid (fun w => { w with channel := some chB })) v =
        lookup st.users v :=
    fun v hv => lookup_updateUser_ne st.users uid _ v hv
  have htargets : ∀ o ∈ (sendToChannel (Message.mk u.pfx .join (chB :: more))
      (updateUser st.users uid (fun v => { v with channel := some chB })) chB uid).1,
      ∀ w, lookup st.users o.1 = some w → w.channel ≠ some chA := by
    intro o ho w hw
    obtain ⟨_, hoex, w1, hw1, hc1⟩ := houts o ho
    have hw1' : (o.1, w1) ∈ st.users := mem_updateUser_ne st.users uid _ o.1 w1 hw1 hoex
    have : lookup st.users o.1 = some w1 := lookup_of_mem_nodup st.users hnd o.1 w1 hw1'
    rw [this] at hw
    cases hw
    rw [hc1]
    intro hcontra
    exact hne (by injection hcontra)
  cases hb : (sendToChannel (Message.mk u.pfx .join (chB :: more))
      (updateUser st.users uid (fun v => { v with channel := some chB })) chB uid).2 with
  | false =>
    rw [hb] at hjoin
    rw [handleMessage_early _ _ _ _ u _ _ .err hu (Or.inl hreg) hjoin]
    exact ⟨⟨{ u with channel := some chB }, hu1, rfl⟩,
      mem_insertChannel_of_mem st.channels chB chA hchA, hframe, htargets⟩
  | true =>
    rw [hb] at hjoin
    rw [handleMessage_fall _ _ _ _ u _ _ hu (Or.inl hreg) hjoin]
    have hrc := regCheck_registered
      (ServerState.mk (updateUser st.users uid (fun v => { v with channel := some chB }))
        (insertChannel st.channels chB)) uid { u with channel := some chB } hu1 hreg
    rw [hrc]
    refine ⟨⟨{ u with channel := some chB }, hu1, rfl⟩,
      mem_insertChannel_of_mem st.channels chB chA hchA, hframe, ?_⟩
    intro o ho
    rw [List.append_nil] at ho
    exact htargets o ho

/-- Witness for claim C10: user 0 moves from #a to #b. -/
theorem c10_witness :
    (∃ u', lookup
        (handleMessage (Message.mk none .join ["#b".toList]) c10State 0 "srv".toList).1.users 0 =
      some u' ∧ u'.channel = some "#b".toList) ∧
    "#a".toList ∈
      (handleMessage (Message.mk none .join ["#b".toList]) c10State 0 "srv".toList).1.channels ∧
    (∀ v, v ≠ 0 →
      lookup (handleMessage (Message.mk none .join ["#b".toList]) c10State 0 "srv".toList).1.users v =
        lookup c10State.users v) ∧
    (∀ o ∈ (handleMessage (Message.mk none .join ["#b".toList]) c10State 0 "srv".toList).2.1,
      ∀ w, lookup c10State.users o.1 = some w → w.channel ≠ some "#a".toList) :=
  c10_join_overwrite_frame c10State 0 (c10Member "a".toList "#a".toList) "srv".toList none
    "#a".toList "#b".toList [] (by decide) (by decide) (by decide) (by decide) (by decide)
    (by decide)

/-- Counterexample to claim C8 as stated.  With parameters hello-world (which
contains a space) and x, the serializer emits the space-containing parameter
first, colon-prefixed in place, and x after it: the space-containing
parameter is not emitted last, no error is raised, and nothing is
reordered. -/
theorem c8_counterexample :
    displayMsg (Message.mk none .join ["hello world".toList, "x".toList]) =
      "JOIN :hello world x".toList ∧
    List.isSuffixOf ":hello world".toList "JOIN :hello world x".toList = false := by decide

theorem nicknameInUse_true_iff (nm : Str) (us : List (Nat × User)) :
    nicknameInUse nm us = true ↔ ∃ e ∈ us, e.2.nickname = some nm := by
  induction us with
  | nil => simp [nicknameInUse]
  | cons e rest ih =>
    obtain ⟨i, u⟩ := e
    by_cases h : u.nickname = some nm
    · constructor
      · intro _
        exact ⟨(i, u), List.mem_cons_self _ _, h⟩
      · intro _
        simp [nicknameInUse, h]
    · simp only [nicknameInUse, if_neg h]
      rw [ih]
      constructor
      · rintro ⟨e1, he1, hn1⟩
        exact ⟨e1, List.mem_cons_of_mem _ he1, hn1⟩
      · rintro ⟨e1, he1, hn1⟩
        rcases List.mem_cons.1 he1 with h1 | h1
        · subst h1
          exact absurd hn1 h
        · exact ⟨e1, h1, hn1⟩

theorem mem_updateUser_elim (us : List (Nat × User)) (id : Nat) (f : User → User)
    (j : Nat) (w : User) (hm : (j, w) ∈ updateUser us id f) :
    (j, w) ∈ us ∨ ∃ v, (j, v) ∈ us ∧ w = f v := by
  induction us with
  | nil => simp [updateUser] at hm
  | cons e rest ih =>
    obtain ⟨i, u⟩ := e
    by_cases hi : i = id
    · subst hi
      simp only [updateUser, if_pos rfl] at hm
      rcases List.mem_cons.1 hm with h1 | h1
      · rw [Prod.mk.injEq] at h1
        refine Or.inr ⟨u, ?_, h1.2⟩
        rw [h1.1]
        exact List.mem_cons_self _ _
      · exact Or.inl (List.mem_cons_of_mem _ h1)
    · simp only [updateUser, if_neg hi] at hm
      rcases List.mem_cons.1 hm with h1 | h1
      · refine Or.inl ?_
        rw [h1]
        exact List.mem_cons_self _ _
      · rcases ih h1 with h2 | ⟨v, hv, hw⟩
        · exact Or.inl (List.mem_cons_of_mem _ h2)
        · exact Or.inr ⟨v, List.mem_cons_of_mem _ hv, hw⟩

theorem nicknameInUse_setNick_mono (m n : Str) (us : List (Nat × User)) (id : Nat)
    (hmn : m ≠ n)
    (h : nicknameInUse m (updateUser us id (fun v => { v with nickname := some n })) = true) :
    nicknameInUse m us = true := by
  rw [nicknameInUse_true_iff] at h ⊢
  obtain ⟨e, he, hnm⟩ := h
  obtain ⟨j, w⟩ := e
  rcases mem_updateUser_elim us id _ j w he with h1 | ⟨v, hv, hw⟩
  · exact ⟨(j, w), h1, hnm⟩
  · rw [hw] at hnm
    simp at hnm
    exact absurd hnm.symm hmn

theorem nicknameInUse_updateUser_keep (nm : Str) (us : List (Nat × User)) (id : Nat)
    (f : User → User) (hf : ∀ v, (f v).nickname = v.nickname) :
    nicknameInUse nm (updateUser us id f) = nicknameInUse nm us := by
  induction us with
  | nil => rfl
  | cons e rest ih =>
    obtain ⟨i, u⟩ := e
    by_cases hi : i = id
    · subst hi
      simp [updateUser, nicknameInUse, hf]
    · simp [updateUser, hi, nicknameInUse, ih]

theorem nickUniqueB_updateUser_keep (us : List (Nat × User)) (id : Nat)
    (f : User → User) (hf : ∀ v, (f v).nickname = v.nickname) :
    nickUniqueB (updateUser us id f) = nickUniqueB us := by
  induction us with
  | nil => rfl
  | cons e rest ih =>
    obtain ⟨i, u⟩ := e
    by_cases hi : i = id
    · subst hi
      simp only [updateUser, if_pos rfl]
      simp [nickUniqueB, hf]
    · simp only [updateUser, if_neg hi]
      rcases hn : u.nickname with _ | nm
      · simp [nickUniqueB, hn, ih]
      · simp [nickUniqueB, hn, ih, nicknameInUse_updateUser_keep nm rest id f hf]

theorem nickUniqueB_setNick (us : List (Nat × User)) (id : Nat) (n : Str)
    (hin : nicknameInUse n us = false) (hnu : nickUniqueB us = true) :
    nickUniqueB (updateUser us id (fun v => { v with nickname := some n })) = true := by
  induction us with
  | nil => rfl
  | cons e rest ih =>
    obtain ⟨i, u⟩ := e
    rw [nicknameInUse] at hin
    simp only [nickUniqueB, Bool.and_eq_true] at hnu
    have hinu : u.nickname ≠ some n := by
      intro hh
      rw [if_pos hh] at hin
      cases hin
    rw [if_neg hinu] at hin
    by_cases hi : i = id
    · subst hi
      simp only [updateUser, if_pos rfl]
      simp only [nickUniqueB, Bool.and_eq_true]
      exact ⟨by simp [hin], hnu.2⟩
    · simp only [updateUser, if_neg hi]
      simp only [nickUniqueB, Bool.and_eq_true]
      refine ⟨?_, ih hin hnu.2⟩
      rcases hn : u.nickname with _ | nm
      · rfl
      · have h1 : nicknameInUse nm rest = false := by
          have h2 := hnu.1
          rw [hn] at h2
          simpa using h2
        have hnmn : nm ≠ n := by
          intro he
          exact hinu (he ▸ hn)
        cases hcase : nicknameInUse nm
            (updateUser rest id (fun v => { v with nickname := some n })) with
        | false => simp [hcase]
        | true =>
          exact absurd (nicknameInUse_setNick_mono nm n rest id hnmn hcase) (by simp [h1])

theorem dispatchCore_nick_inuse (pv : Option Str) (n : Str) (more : List Str) (st : ServerState)
    (uid : Nat) (sp : Str) (u : User) (hu : lookup st.users uid = some u)
    (hs : u.sinkOk = true) (hin : nicknameInUse n st.users = true) :
    dispatchCore (Message.mk pv .nick (n :: more)) st uid sp =
      (st, [(uid, Line.resp sp ERR_NICKNAMEINUSE ["Nickname is already in use.".toList])],
        some .cont) := by
  unfold dispatchCore
  simp [hin, replyStep, sendToUser, hu, hs]

theorem dispatchCore_nick_free (pv : Option Str) (n : Str) (more : List Str) (st : ServerState)
    (uid : Nat) (sp : Str) (u : User) (hu : lookup st.users uid = some u)
    (hin : nicknameInUse n st.users = false) :
    dispatchCore (Message.mk pv .nick (n :: more)) st uid sp =
      ({ st with users := updateUser st.users uid (fun v => { v with nickname := some n }) },
       if u.is_registered then
         (broadcastToAll (Message.mk pv .nick (n :: more))
           (updateUser st.users uid (fun v => { v with nickname := some n }))).1
       else [],
       if u.is_registered then
         (if (broadcastToAll (Message.mk pv .nick (n :: more))
              (updateUser st.users uid (fun v => { v with nickname := some n }))).2
          then none else some .err)
       else none) := by
  unfold dispatchCore
  cases hr : u.is_registered with
  | true => simp [hin, hu, hr]
  | false => simp [hin, hu, hr]

/-- Claim C1 as amended.  The amendment: the code refuses a NICK whose
nickname is held by any participant including the requester itself, not only
by another participant.  Under that reading the claim holds: if the nickname
is in use anywhere the reply is ERR_NICKNAMEINUSE and the state is unchanged;
otherwise the nickname is set; and in all cases pairwise nickname uniqueness
of the registry is preserved. -/
theorem c1_nick_uniqueness (st : ServerState) (uid : Nat) (u : User) (sp : Str)
    (p0 : Option Str) (n : Str) (more : List Str)
    (hu : lookup st.users uid = some u) (hs : u.sinkOk = true) :
    (nicknameInUse n st.users = true →
      handleMessage (Message.mk p0 .nick (n :: more)) st uid sp =
        (st, [(uid, Line.resp sp ERR_NICKNAMEINUSE ["Nickname is already in use.".toList])],
          .cont)) ∧
    (nicknameInUse n st.users = false →
      ∃ u', lookup (handleMessage (Message.mk p0 .nick (n :: more)) st uid sp).1.users uid =
        some u' ∧ u'.nickname = some n) ∧
    (nickUniqueB st.users = true →
      nickUniqueB (handleMessage (Message.mk p0 .nick (n :: more)) st uid sp).1.users =
        true) := by
  have hby : u.is_registered = true ∨
      allowedPreReg (Message.mk p0 .nick (n :: more)).command = true := Or.inr rfl
  have hfree : ∀ _hin : nicknameInUse n st.users = false,
      (∃ u', lookup (handleMessage (Message.mk p0 .nick (n :: more)) st uid sp).1.users uid =
        some u' ∧ u'.nickname = some n) ∧
      (nickUniqueB st.users = true →
        nickUniqueB (handleMessage (Message.mk p0 .nick (n :: more)) st uid sp).1.users =
          true) := by
    intro hin
    have hd := dispatchCore_nick_free u.pfx n more st uid sp u hu hin
    have hu1 : lookup (updateUser st.users uid (fun v => { v with nickname := some n })) uid =
        some { u with nickname := some n } := by
      rw [lookup_updateUser_self, hu]
      rfl
    have hpres : nickUniqueB st.users = true →
        nickUniqueB (updateUser st.users uid (fun v => { v with nickname := some n })) = true :=
      fun hx => nickUniqueB_setNick st.users uid n hin hx
    cases hr : u.is_registered with
    | true =>
      rw [hr] at hd
      simp only [if_pos rfl] at hd
      cases hb : (broadcastToAll (Message.mk u.pfx .nick (n :: more))
          (updateUser st.users uid (fun v => { v with nickname := some n }))).2 with
      | false =>
        rw [hb] at hd
        simp only [Bool.false_eq_true, if_false] at hd
        rw [handleMessage_early _ _ _ _ u _ _ .err hu hby hd]
        exact ⟨⟨{ u with nickname := some n }, hu1, rfl⟩, hpres⟩
      | true =>
        rw [hb] at hd
        simp only [if_pos rfl] at hd
        rw [handleMessage_fall _ _ _ _ u _ _ hu hby hd]
        rw [regCheck_registered _ uid { u with nickname := some n } hu1 hr]
        exact ⟨⟨{ u with nickname := some n }, hu1, rfl⟩, hpres⟩
    | false =>
      rw [hr] at hd
      simp only [Bool.false_eq_true, if_false] at hd
      rw [handleMessage_fall _ _ _ _ u _ _ hu hby hd]
      rcases hus : u.username with _ | un
      · have hpfx : ({ u with nickname := some n } : User).pfx = none := by
          simp [User.pfx, hus]
        rw [regCheck_no_pfx _ uid { u with nickname := some n } hu1 hpfx]
        exact ⟨⟨{ u with nickname := some n }, hu1, rfl⟩, hpres⟩
      · have hpfx : ({ u with nickname := some n } : User).pfx =
            some (n ++ '!' :: un ++ '@' :: u.address) := by
          simp [User.pfx, hus]
        rw [regCheck_fires _ uid { u with nickname := some n } _ n hu1 hr hpfx rfl hs]
        refine ⟨⟨{ { u with nickname := some n } with is_registered := true }, ?_, rfl⟩, ?_⟩
        · show lookup (updateUser
            (updateUser st.users uid (fun v => { v with nickname := some n })) uid
            (fun v => { v with is_registered := true })) uid = _
          rw [lookup_updateUser_self, hu1]
          rfl
        · intro hx
          show nickUniqueB (updateUser
            (updateUser st.users uid (fun v => { v with nickname := some n })) uid
            (fun v => { v with is_registered := true })) = true
          rw [nickUniqueB_updateUser_keep
            (updateUser st.users uid (fun v => { v with nickname := some n })) uid
            (fun v => { v with is_registered := true }) (fun v => rfl)]
          exact hpres hx
  refine ⟨?_, fun hin => (hfree hin).1, ?_⟩
  · intro hin
    exact handleMessage_early _ _ _ _ u _ _ _ hu hby
      (dispatchCore_nick_inuse u.pfx n more st uid sp u hu hs hin)
  · intro hnu
    cases hin : nicknameInUse n st.users with
    | true =>
      rw [handleMessage_early _ _ _ _ u _ _ _ hu hby
        (dispatchCore_nick_inuse u.pfx n more st uid sp u hu hs hin)]
      exact hnu
    | false => exact (hfree hin).2 hnu

/-- Witness for claim C1: the fresh user 1 takes the free nickname b. -/
theorem c1_witness :
    (nicknameInUse "b".toList c1WitState.users = true →
      handleMessage (Message.mk none .nick ["b".toList]) c1WitState 1 "srv".toList =
        (c1WitState, [(1, Line.resp "srv".toList ERR_NICKNAMEINUSE
          ["Nickname is already in use.".toList])], .cont)) ∧
    (nicknameInUse "b".toList c1WitState.users = false →
      ∃ u', lookup
          (handleMessage (Message.mk none .nick ["b".toList]) c1WitState 1 "srv".toList).1.users 1 =
        some u' ∧ u'.nickname = some "b".toList) ∧
    (nickUniqueB c1WitState.users = true →
      nickUniqueB
        (handleMessage (Message.mk none .nick ["b".toList]) c1WitState 1 "srv".toList).1.users =
        true) :=
  c1_nick_uniqueness c1WitState 1 c1Fresh "srv".toList none "b".toList [] (by decide) (by decide)

theorem sendToChannel_abort (m : Message) (ch : Str) (ex : Nat) (pre post : List (Nat × User))
    (id : Nat) (u : User) (hid : id ≠ ex) (hch : u.channel = some ch) (hs : u.sinkOk = false)
    (hpre : ∀ e ∈ pre, e.1 ≠ ex → e.2.channel = some ch → e.2.sinkOk = true) :
    sendToChannel m (pre ++ (id, u) :: post) ch ex = ((sendToChannel m pre ch ex).1, false) := by
  induction pre with
  | nil =>
    simp only [List.nil_append]
    simp [sendToChannel, hid, hch, hs]
  | cons e rest ih =>
    obtain ⟨i, v⟩ := e
    have ih' := ih (fun e he h1 h2 => hpre e (List.mem_cons_of_mem _ he) h1 h2)
    by_cases h : i ≠ ex ∧ v.channel = some ch
    · have hv : v.sinkOk = true := hpre (i, v) (List.mem_cons_self _ _) h.1 h.2
      simp [sendToChannel, h, hv, ih']
    · simp [sendToChannel, h, ih']

theorem broadcastMessage_abort (m : Message) (ex : Nat) (pre post : List (Nat × User))
    (id : Nat) (u : User) (hid : id ≠ ex) (hs : u.sinkOk = false)
    (hpre : ∀ e ∈ pre, e.1 ≠ ex → e.2.sinkOk = true) :
    broadcastMessage m (pre ++ (id, u) :: post) ex = ((broadcastMessage m pre ex).1, false) := by
  induction pre with
  | nil =>
    simp only [List.nil_append]
    simp [broadcastMessage, hid, hs]
  | cons e rest ih =>
    obtain ⟨i, v⟩ := e
    have ih' := ih (fun e he h1 => hpre e (List.mem_cons_of_mem _ he) h1)
    by_cases h : i ≠ ex
    · have hv : v.sinkOk = true := hpre (i, v) (List.mem_cons_self _ _) h
      simp [broadcastMessage, h, hv, ih']
    · simp [broadcastMessage, h, ih']

theorem broadcastToAll_abort (m : Message) (pre post : List (Nat × User))
    (id : Nat) (u : User) (hs : u.sinkOk = false)
    (hpre : ∀ e ∈ pre, e.2.sinkOk = true) :
    broadcastToAll m (pre ++ (id, u) :: post) = ((broadcastToAll m pre).1, false) := by
  induction pre with
  | nil =>
    simp only [List.nil_append]
    simp [broadcastToAll, hs]
  | cons e rest ih =>
    obtain ⟨i, v⟩ := e
    have ih' := ih (fun e he => hpre e (List.mem_cons_of_mem _ he))
    have hv : v.sinkOk = true := hpre (i, v) (List.mem_cons_self _ _)
    simp [broadcastToAll, hv, ih']

theorem handleConnection_err_continues (st : ServerState) (uid : Nat) (sp : Str)
    (chunk : Str) (rest : List Str) (m : Message) (hp : parseMsg chunk = .ok m)
    (he : (handleMessage m st uid sp).2.2 = .err) :
    handleConnection st uid sp (chunk :: rest) =
      ((handleConnection (handleMessage m st uid sp).1 uid sp rest).1,
       (handleMessage m st uid sp).2.1 ++
         (handleConnection (handleMessage m st uid sp).1 uid sp rest).2.1,
       (handleConnection (handleMessage m st uid sp).1 uid sp rest).2.2) := by
  rcases hh : handleMessage m st uid sp with ⟨st1, outs, r⟩
  have he' : r = .err := by
    rw [hh] at he
    exact he
  subst he'
  simp [handleConnection, hp, hh]

/-- Claim C5 as amended.  The amendment: a write failure to one recipient
aborts delivery to every recipient not yet reached by that fan-out loop (the
question-mark on write_all propagates the error), for all three primitives;
the error is then only logged by the session loop, which continues, so the
originating session is not terminated. -/
theorem c5_write_failure_aborts_fanout :
    (∀ (m : Message) (ch : Str) (ex : Nat) (pre post : List (Nat × User)) (id : Nat) (u : User),
      id ≠ ex → u.channel = some ch → u.sinkOk = false →
      (∀ e ∈ pre, e.1 ≠ ex → e.2.channel = some ch → e.2.sinkOk = true) →
      sendToChannel m (pre ++ (id, u) :: post) ch ex = ((sendToChannel m pre ch ex).1, false)) ∧
    (∀ (m : Message) (ex : Nat) (pre post : List (Nat × User)) (id : Nat) (u : User),
      id ≠ ex → u.sinkOk = false →
      (∀ e ∈ pre, e.1 ≠ ex → e.2.sinkOk = true) →
      broadcastMessage m (pre ++ (id, u) :: post) ex = ((broadcastMessage m pre ex).1, false)) ∧
    (∀ (m : Message) (pre post : List (Nat × User)) (id : Nat) (u : User),
      u.sinkOk = false → (∀ e ∈ pre, e.2.sinkOk = true) →
      broadcastToAll m (pre ++ (id, u) :: post) = ((broadcastToAll m pre).1, false)) ∧
    (∀ (st : ServerState) (uid : Nat) (sp : Str) (chunk : Str) (rest : List Str) (m : Message),
      parseMsg chunk = .ok m → (handleMessage m st uid sp).2.2 = .err →
      handleConnection st uid sp (chunk :: rest) =
        ((handleConnection (handleMessage m st uid sp).1 uid sp rest).1,
         (handleMessage m st uid sp).2.1 ++
           (handleConnection (handleMessage m st uid sp).1 uid sp rest).2.1,
         (handleConnection (handleMessage m st uid sp).1 uid sp rest).2.2)) :=
  ⟨fun m ch ex pre post id u h1 h2 h3 h4 => sendToChannel_abort m ch ex pre post id u h1 h2 h3 h4,
   fun m ex pre post id u h1 h2 h3 => broadcastMessage_abort m ex pre post id u h1 h2 h3,
   fun m pre post id u h1 h2 => broadcastToAll_abort m pre post id u h1 h2,
   fun st uid sp chunk rest m h1 h2 => handleConnection_err_continues st uid sp chunk rest m h1 h2⟩

/-- Witness for claim C5: with the failing member 2 between the excluded
originator 1 and the healthy member 3, the fan-out delivers exactly what the
loop reached before the failure. -/
theorem c5_witness :
    sendToChannel (Message.mk none .privMsg ["#c".toList, "hi".toList])
        ([(1, c5Member)] ++ (2, c5Bad) :: [(3, c5Member)]) "#c".toList 1 =
      ((sendToChannel (Message.mk none .privMsg ["#c".toList, "hi".toList])
        [(1, c5Member)] "#c".toList 1).1, false) :=
  c5_write_failure_aborts_fanout.1 (Message.mk none .privMsg ["#c".toList, "hi".toList])
    "#c".toList 1 [(1, c5Member)] [(3, c5Member)] 2 c5Bad (by decide) (by decide) (by decide)
    (by decide)

theorem joinSp_append_singleton (xs : List Str) (x : Str) :
    joinSp (xs ++ [x]) = if xs = [] then x else joinSp xs ++ ' ' :: x := by
  induction xs with
  | nil => simp [joinSp]
  | cons y ys ih =>
    cases ys with
    | nil => simp [joinSp]
    | cons z zs =>
      simp only [List.cons_append, joinSp, List.append_eq]
      rw [List.cons_append] at ih
      rw [ih]
      simp [List.append_assoc]

/-- Claim C8 as amended.  The amendment: every space-containing parameter is
emitted at its original position prefixed with a colon; nothing is reordered
and no error is raised, so a space-containing parameter is emitted last
exactly when it was supplied last, in which case the serialized line ends
with the colon-prefixed parameter. -/
theorem c8_space_param_layout (m : Message) (pre : List Str) (t : Str)
    (hp : m.params = pre ++ [t]) (ht : ' ' ∈ t) :
    ∃ front, displayMsg m = front ++ ':' :: t := by
  have hft : fmtParam t = ':' :: t := by simp [fmtParam, ht]
  have hargs : ∃ g, joinSp (m.params.map fmtParam) = g ++ ':' :: t := by
    rw [hp, List.map_append, List.map_singleton, joinSp_append_singleton, hft]
    by_cases hpre : pre.map fmtParam = []
    · exact ⟨[], by simp [hpre]⟩
    · exact ⟨joinSp (pre.map fmtParam) ++ [' '], by simp [hpre, List.append_assoc]⟩
  obtain ⟨g, hg⟩ := hargs
  rcases hpm : m.pfx with _ | p
  · refine ⟨Command.toStr m.command ++ ' ' :: g, ?_⟩
    unfold displayMsg
    rw [hpm, hg]
    simp [List.append_assoc]
  · refine ⟨':' :: p ++ ' ' :: (Command.toStr m.command ++ ' ' :: g), ?_⟩
    unfold displayMsg
    rw [hpm, hg]
    simp [List.append_assoc]

/-- Witness for claim C8: a PRIVMSG whose trailing text contains a space is
serialized with the colon-prefixed text at the end of the line. -/
theorem c8_witness :
    ∃ front, displayMsg (Message.mk none .privMsg ["#r".toList, "a b".toList]) =
      front ++ ':' :: "a b".toList :=
  c8_space_param_layout (Message.mk none .privMsg ["#r".toList, "a b".toList])
    ["#r".toList] "a b".toList rfl (by decide)

theorem welcomeCount_nil (uid : Nat) : welcomeCount uid [] = 0 := rfl

theorem welcomeCount_append (uid : Nat) (a b : List Output) :
    welcomeCount uid (a ++ b) = welcomeCount uid a + welcomeCount uid b := by
  unfold welcomeCount
  rw [List.filter_append, List.length_append]

theorem welcomeCount_eq_zero (uid : Nat) (outs : List Output)
    (h : ∀ o ∈ outs, isWelcome o.2 = false) : welcomeCount uid outs = 0 := by
  unfold welcomeCount
  induction outs with
  | nil => rfl
  | cons o rest ih =>
    rw [List.filter_cons]
    have ho := h o (List.mem_cons_self _ _)
    rw [ho]
    simp only [Bool.and_false, if_false]
    exact ih (fun o1 ho1 => h o1 (List.mem_cons_of_mem _ ho1))

theorem welcomeCount_single_resp (uid tgt : Nat) (src : Str) (code : Nat) (ps : List Str)
    (hc : code ≠ 1) : welcomeCount uid [(tgt, Line.resp src code ps)] = 0 := by
  apply welcomeCount_eq_zero
  intro o ho
  rcases List.mem_singleton.1 ho with rfl
  simp [isWelcome, RPL_WELCOME, hc]

theorem sendToUser_ok (us : List (Nat × User)) (id : Nat) (l : Line) (outs : List Output)
    (h : sendToUser us id l = .ok outs) : outs = [(id, l)] := by
  unfold sendToUser at h
  cases hl : lookup us id with
  | none =>
    rw [hl] at h
    cases h
  | some u =>
    rw [hl] at h
    cases hs : u.sinkOk with
    | true =>
      simp [hs] at h
      first
      | exact h
      | exact h.symm
    | false => simp [hs] at h

theorem replyStep_state (st : ServerState) (uid : Nat) (l : Line)
    (after : Option DispatchResult) : (replyStep st uid l after).1 = st := by
  unfold replyStep
  cases sendToUser st.users uid l <;> rfl

theorem replyStep_no_welcome (uid' : Nat) (st : ServerState) (uid : Nat) (l : Line)
    (after : Option DispatchResult) (hl : isWelcome l = false) :
    welcomeCount uid' (replyStep st uid l after).2.1 = 0 := by
  unfold replyStep
  cases hsu : sendToUser st.users uid l with
  | error e => rfl
  | ok outs =>
    rw [sendToUser_ok st.users uid l outs hsu]
    apply welcomeCount_eq_zero
    intro o ho
    rcases List.mem_singleton.1 ho with rfl
    exact hl

theorem broadcastToAll_outs (m : Message) (us : List (Nat × User)) :
    ∀ o ∈ (broadcastToAll m us).1, o.2 = Line.msg m := by
  induction us with
  | nil => intro o ho; cases ho
  | cons e rest ih =>
    obtain ⟨i, u⟩ := e
    intro o ho
    cases hs : u.sinkOk with
    | true =>
      rw [broadcastToAll, hs] at ho
      simp only [if_pos rfl] at ho
      rcases List.mem_cons.1 ho with h1 | h1
      · rw [h1]
      · exact ih o h1
    | false =>
      rw [broadcastToAll, hs] at ho
      simp at ho

theorem broadcastMessage_outs (m : Message) (us : List (Nat × User)) (ex : Nat) :
    ∀ o ∈ (broadcastMessage m us ex).1, o.2 = Line.msg m := by
  induction us with
  | nil => intro o ho; cases ho
  | cons e rest ih =>
    obtain ⟨i, u⟩ := e
    intro o ho
    by_cases hi : i ≠ ex
    · cases hs : u.sinkOk with
      | true =>
        rw [broadcastMessage, if_pos hi, hs] at ho
        simp only [if_pos rfl] at ho
        rcases List.mem_cons.1 ho with h1 | h1
        · rw [h1]
        · exact ih o h1
      | false =>
        rw [broadcastMessage, if_pos hi, hs] at ho
        simp at ho
    · rw [broadcastMessage, if_neg hi] at ho
      exact ih o ho

theorem listLoop_no_welcome (uid' : Nat) (sp : Str) (us : List (Nat × User)) (uid : Nat)
    (chs : List Str) : welcomeCount uid' (listLoop sp us uid chs).1 = 0 := by
  induction chs with
  | nil => rfl
  | cons c rest ih =>
    rw [listLoop]
    cases hsu : sendToUser us uid
        (Line.resp sp RPL_LIST [c, natToChars (countMembers us c)]) with
    | error e => rfl
    | ok o =>
      rw [sendToUser_ok us uid _ o hsu]
      simp only
      rw [welcomeCount_append, ih]
      rw [welcomeCount_single_resp uid' uid sp RPL_LIST _ (by decide)]

theorem stepOk_still (u : User) (uid : Nat) (st : ServerState) (outs : List Output)
    (hu : lookup st.users uid = some u) (h0 : welcomeCount uid outs = 0) :
    StepOk u uid (st, outs) :=
  ⟨u, hu, rfl, rfl, fun h => h, fun h => h, h0⟩

theorem stepOk_replyStep (u : User) (uid : Nat) (st : ServerState) (l : Line)
    (after : Option DispatchResult) (hu : lookup st.users uid = some u)
    (hl : isWelcome l = false) :
    StepOk u uid ((replyStep st uid l after).1, (replyStep st uid l after).2.1) := by
  rw [replyStep_state]
  exact stepOk_still u uid st _ hu (replyStep_no_welcome uid st uid l after hl)

theorem stepOk_users_update (u : User) (uid tid : Nat) (st : ServerState) (f : User → User)
    (outs : List Output) (chs : List Str) (hu : lookup st.users uid = some u)
    (hreg : ∀ v, (f v).is_registered = v.is_registered)
    (hsk : ∀ v, (f v).sinkOk = v.sinkOk)
    (hnk : ∀ v, v.nickname.isSome = true → (f v).nickname.isSome = true)
    (hun : ∀ v, v.username.isSome = true → (f v).username.isSome = true)
    (h0 : welcomeCount uid outs = 0) :
    StepOk u uid (ServerState.mk (updateUser st.users tid f) chs, outs) := by
  by_cases ht : uid = tid
  · subst ht
    refine ⟨f u, ?_, hreg u, hsk u, fun h => hnk u h, fun h => hun u h, h0⟩
    show lookup (updateUser st.users uid f) uid = some (f u)
    rw [lookup_updateUser_self, hu]
    rfl
  · refine ⟨u, ?_, rfl, rfl, fun h => h, fun h => h, h0⟩
    show lookup (updateUser st.users tid f) uid = some u
    rw [lookup_updateUser_ne st.users tid f uid ht, hu]

theorem dispatchCore_step (msg : Message) (st : ServerState) (uid : Nat) (sp : Str) (u : User)
    (hu : lookup st.users uid = some u) :
    StepOk u uid ((dispatchCore msg st uid sp).1, (dispatchCore msg st uid sp).2.1) := by
  cases hc : msg.command with
  | user =>
    cases hp : msg.params.head? with
    | none =>
      simp [dispatchCore, hc, hp]
      refine stepOk_replyStep u uid st _ _ hu ?_
      rfl
    | some username =>
      cases hr : u.is_registered with
      | true =>
        simp [dispatchCore, hc, hp, hu, hr]
        refine stepOk_replyStep u uid st _ _ hu ?_
        rfl
      | false =>
        simp [dispatchCore, hc, hp, hu, hr]
        exact stepOk_users_update u uid uid st _ [] st.channels hu
          (fun v => rfl) (fun v => rfl) (fun v h => h) (fun v _h => rfl) rfl
  | nick =>
    cases hp : msg.params.head? with
    | none =>
      simp [dispatchCore, hc, hp]
      refine stepOk_replyStep u uid st _ _ hu ?_
      rfl
    | some n =>
      cases hin : nicknameInUse n st.users with
      | true =>
        simp [dispatchCore, hc, hp, hin]
        refine stepOk_replyStep u uid st _ _ hu ?_
        rfl
      | false =>
        cases hr : u.is_registered with
        | true =>
          simp [dispatchCore, hc, hp, hin, hu, hr]
          refine stepOk_users_update u uid uid st _ _ st.channels hu
            (fun v => rfl) (fun v => rfl) (fun v _h => rfl) (fun v h => h) ?_
          exact welcomeCount_eq_zero _ _ (fun o ho => by
            rw [broadcastToAll_outs _ _ o ho]
            rfl)
        | false =>
          simp [dispatchCore, hc, hp, hin, hu, hr]
          exact stepOk_users_update u uid uid st _ [] st.channels hu
            (fun v => rfl) (fun v => rfl) (fun v _h => rfl) (fun v h => h) rfl
  | away =>
    have h1 : lookup (updateUser st.users uid (fun v => { v with is_away := !v.is_away })) uid =
        some { u with is_away := !u.is_away } := by
      rw [lookup_updateUser_self, hu]
      rfl
    cases haw : u.is_away with
    | false =>
      simp [dispatchCore, hc, hu, haw]
      rw [replyStep_state]
      exact ⟨{ u with is_away := true }, by rw [h1]; simp [haw], rfl, rfl, fun h => h,
        fun h => h, replyStep_no_welcome uid _ uid _ _ rfl⟩
    | true =>
      simp [dispatchCore, hc, hu, haw]
      rw [replyStep_state]
      exact ⟨{ u with is_away := false }, by rw [h1]; simp [haw], rfl, rfl, fun h => h,
        fun h => h, replyStep_no_welcome uid _ uid _ _ rfl⟩
  | privMsg =>
    by_cases hlen : msg.params.length = 2
    · cases hp : msg.params.head? with
      | none =>
        rw [List.head?_eq_none_iff] at hp
        rw [hp] at hlen
        cases hlen
      | some recipient =>
        by_cases hh : recipient.head? = some '#'
        · by_cases hmem : recipient ∈ st.channels
          · by_cases hch : u.channel = some recipient
            · simp [dispatchCore, hc, hlen, hp, hh, hmem, hu, hch]
              refine stepOk_still u uid st _ hu ?_
              exact welcomeCount_eq_zero _ _ (fun o ho => by
                rw [(sendToChannel_outs _ _ _ _ o ho).1]
                rfl)
            · simp [dispatchCore, hc, hlen, hp, hh, hmem, hu, hch]
              refine stepOk_replyStep u uid st _ _ hu ?_
              rfl
          · simp [dispatchCore, hc, hlen, hp, hh, hmem]
            refine stepOk_replyStep u uid st _ _ hu ?_
            rfl
        · cases hg : getNicknameId recipient st.users with
          | none =>
            simp [dispatchCore, hc, hlen, hp, hh, hg]
            refine stepOk_replyStep u uid st _ _ hu ?_
            rfl
          | some nid =>
            cases hln : lookup st.users nid with
            | none =>
              simp [dispatchCore, hc, hlen, hp, hh, hg, hln]
              exact stepOk_still u uid st [] hu rfl
            | some ru =>
              cases haw : ru.is_away with
              | true =>
                simp [dispatchCore, hc, hlen, hp, hh, hg, hln, haw]
                split
                · exact stepOk_still u uid st [] hu rfl
                · rename_i o1 hs1
                  have ho1 : welcomeCount uid o1 = 0 := by
                    rw [sendToUser_ok _ _ _ _ hs1]
                    exact welcomeCount_single_resp uid uid sp RPL_AWAY _ (by decide)
                  split
                  · exact stepOk_still u uid st o1 hu ho1
                  · rename_i o2 hs2
                    have ho2 : welcomeCount uid o2 = 0 := by
                      rw [sendToUser_ok _ _ _ _ hs2]
                      exact welcomeCount_eq_zero _ _ (fun o ho => by
                        rcases List.mem_singleton.1 ho with rfl
                        rfl)
                    refine stepOk_still u uid st (o1 ++ o2) hu ?_
                    rw [welcomeCount_append, ho1, ho2]
              | false =>
                simp [dispatchCore, hc, hlen, hp, hh, hg, hln, haw]
                split
                · exact stepOk_still u uid st [] hu rfl
                · rename_i o2 hs2
                  have ho2 : welcomeCount uid o2 = 0 := by
                    rw [sendToUser_ok _ _ _ _ hs2]
                    exact welcomeCount_eq_zero _ _ (fun o ho => by
                      rcases List.mem_singleton.1 ho with rfl
                      rfl)
                  exact stepOk_still u uid st o2 hu ho2
    · simp [dispatchCore, hc, hlen]
      refine stepOk_replyStep u uid st _ _ hu ?_
      rfl
  | quit =>
    cases hr : u.is_registered with
    | true =>
      simp [dispatchCore, hc, hu, hr]
      split
      · exact stepOk_still u uid st [] hu rfl
      · rename_i o1 hs1
        have ho1 : welcomeCount uid o1 = 0 := by
          rw [sendToUser_ok _ _ _ _ hs1]
          exact welcomeCount_eq_zero _ _ (fun o ho => by
            rcases List.mem_singleton.1 ho with rfl
            rfl)
        refine stepOk_still u uid st _ hu ?_
        rw [welcomeCount_append, ho1]
        rw [welcomeCount_eq_zero _ _ (fun o ho => by
          rw [broadcastMessage_outs _ _ _ o ho]
          rfl)]
    | false =>
      simp [dispatchCore, hc, hu, hr]
      split
      · exact stepOk_still u uid st [] hu rfl
      · rename_i o1 hs1
        have ho1 : welcomeCount uid o1 = 0 := by
          rw [sendToUser_ok _ _ _ _ hs1]
          exact welcomeCount_eq_zero _ _ (fun o ho => by
            rcases List.mem_singleton.1 ho with rfl
            rfl)
        exact stepOk_still u uid st o1 hu ho1
  | unknown =>
    simp [dispatchCore, hc]
    refine stepOk_replyStep u uid st _ _ hu ?_
    rfl
  | join =>
    cases hp : msg.params.head? with
    | none =>
      simp [dispatchCore, hc, hp]
      refine stepOk_replyStep u uid st _ _ hu ?_
      rfl
    | some name =>
      simp [dispatchCore, hc, hp, hu]
      refine stepOk_users_update u uid uid st _ _ (insertChannel st.channels name) hu
        (fun v => rfl) (fun v => rfl) (fun v h => h) (fun v h => h) ?_
      exact welcomeCount_eq_zero _ _ (fun o ho => by
        rw [(sendToChannel_outs _ _ _ _ o ho).1]
        rfl)
  | part =>
    cases hp : msg.params.head? with
    | none =>
      simp [dispatchCore, hc, hp]
      refine stepOk_replyStep u uid st _ _ hu ?_
      rfl
    | some name =>
      by_cases hmem : name ∈ st.channels
      · by_cases hch : u.channel = some name
        · simp [dispatchCore, hc, hp, hmem, hu, hch]
          refine stepOk_users_update u uid uid st _ _ st.channels hu
            (fun v => rfl) (fun v => rfl) (fun v h => h) (fun v h => h) ?_
          exact welcomeCount_eq_zero _ _ (fun o ho => by
            rw [(sendToChannel_outs _ _ _ _ o ho).1]
            rfl)
        · simp [dispatchCore, hc, hp, hmem, hu, hch]
          refine stepOk_replyStep u uid st _ _ hu ?_
          rfl
      · simp [dispatchCore, hc, hp, hmem]
        refine stepOk_replyStep u uid st _ _ hu ?_
        rfl
  | kick =>
    cases hp : msg.params.head? with
    | none =>
      simp [dispatchCore, hc, hp]
      refine stepOk_replyStep u uid st _ _ hu ?_
      rfl
    | some name =>
      cases hp1 : msg.params[1]? with
      | none =>
        simp [dispatchCore, hc, hp, hp1]
        refine stepOk_replyStep u uid st _ _ hu ?_
        rfl
      | some target =>
        by_cases hmem : name ∈ st.channels
        · by_cases hch : u.channel = some name
          · cases hg : getNicknameId target st.users with
            | none =>
              simp [dispatchCore, hc, hp, hp1, hmem, hu, hch, hg]
              refine stepOk_replyStep u uid st _ _ hu ?_
              rfl
            | some tid =>
              cases hlt : lookup st.users tid with
              | none =>
                simp [dispatchCore, hc, hp, hp1, hmem, hu, hch, hg, hlt]
                exact stepOk_still u uid st [] hu rfl
              | some tu =>
                by_cases htc : tu.channel = some name
                · have h0 : welcomeCount uid (sendToChannel msg st.users name uid).1 = 0 :=
                    welcomeCount_eq_zero _ _ (fun o ho => by
                      rw [(sendToChannel_outs _ _ _ _ o ho).1]
                      rfl)
                  cases hb : (sendToChannel msg st.users name uid).2 with
                  | true =>
                    simp [dispatchCore, hc, hp, hp1, hmem, hu, hch, hg, hlt, htc, hb]
                    exact stepOk_users_update u uid tid st _ _ st.channels hu
                      (fun v => rfl) (fun v => rfl) (fun v h => h) (fun v h => h) h0
                  | false =>
                    simp [dispatchCore, hc, hp, hp1, hmem, hu, hch, hg, hlt, htc, hb]
                    exact stepOk_still u uid st _ hu h0
                · simp [dispatchCore, hc, hp, hp1, hmem, hu, hch, hg, hlt, htc]
                  refine stepOk_replyStep u uid st _ _ hu ?_
                  rfl
          · simp [dispatchCore, hc, hp, hp1, hmem, hu, hch]
            refine stepOk_replyStep u uid st _ _ hu ?_
            rfl
        · simp [dispatchCore, hc, hp, hp1, hmem]
          refine stepOk_replyStep u uid st _ _ hu ?_
          rfl
  | list =>
    have h0 : welcomeCount uid (listLoop sp st.users uid st.channels).1 = 0 :=
      listLoop_no_welcome uid sp st.users uid st.channels
    cases hb : (listLoop sp st.users uid st.channels).2 with
    | true =>
      simp [dispatchCore, hc, hb]
      split
      · rename_i o hs1
        have ho : welcomeCount uid o = 0 := by
          rw [sendToUser_ok _ _ _ _ hs1]
          exact welcomeCount_single_resp uid uid sp RPL_LISTEND _ (by decide)
        refine stepOk_still u uid st _ hu ?_
        rw [welcomeCount_append, h0, ho]
      · exact stepOk_still u uid st _ hu h0
    | false =>
      simp [dispatchCore, hc, hb]
      exact stepOk_still u uid st _ hu h0
  | ping =>
    simp [dispatchCore, hc]
    refine stepOk_replyStep u uid st _ _ hu ?_
    rfl
  | pong =>
    simp [dispatchCore, hc]
    exact stepOk_still u uid st [] hu rfl
  | error =>
    simp [dispatchCore, hc]
    exact stepOk_still u uid st [] hu rfl

theorem handleMessage_gate_eq (msg : Message) (st : ServerState) (uid : Nat) (u : User)
    (sp : Str) (hu : lookup st.users uid = some u) (hreg : u.is_registered = false)
    (hs : u.sinkOk = true) (hcmd : allowedPreReg msg.command = false) :
    handleMessage msg st uid sp =
      (st, [(uid, Line.resp sp ERR_NOTREGISTERED ["You have not registered.".toList])],
        .cont) := by
  unfold handleMessage
  rw [hu]
  simp only [hreg, hcmd]
  simp [sendToUser, hu, hs]

theorem handleMessage_step (msg : Message) (st : ServerState) (uid : Nat) (sp : Str) (u : User)
    (hu : lookup st.users uid = some u) (hs : u.sinkOk = true) :
    ∃ u', lookup (handleMessage msg st uid sp).1.users uid = some u' ∧
      u'.sinkOk = true ∧
      (u.is_registered = true → u'.is_registered = true) ∧
      (u'.is_registered = true → u.is_registered = true ∨
        (u'.nickname.isSome = true ∧ u'.username.isSome = true)) ∧
      (u.nickname.isSome = true → u'.nickname.isSome = true) ∧
      (u.username.isSome = true → u'.username.isSome = true) ∧
      welcomeCount uid (handleMessage msg st uid sp).2.1 =
        (if u.is_registered = false ∧ u'.is_registered = true then 1 else 0) := by
  by_cases hgate : u.is_registered = false ∧ allowedPreReg msg.command = false
  · rw [handleMessage_gate_eq msg st uid u sp hu hgate.1 hs hgate.2]
    refine ⟨u, hu, hs, fun h => h, fun h => Or.inl h, fun h => h, fun h => h, ?_⟩
    rw [welcomeCount_single_resp uid uid sp ERR_NOTREGISTERED _ (by decide)]
    simp [hgate.1]
  · have hby : u.is_registered = true ∨ allowedPreReg msg.command = true := by
      cases hr : u.is_registered with
      | true => exact Or.inl rfl
      | false =>
        cases ha : allowedPreReg msg.command with
        | true => exact Or.inr rfl
        | false => exact absurd ⟨hr, ha⟩ hgate
    rcases hd : dispatchCore { msg with pfx := u.pfx } st uid sp with ⟨st1, outs, r⟩
    have hcore := dispatchCore_step { msg with pfx := u.pfx } st uid sp u hu
    rw [hd] at hcore
    obtain ⟨u1, hu1, hreg1, hsk1, hnk1, hun1, hwc1⟩ := hcore
    have hu1' : lookup st1.users uid = some u1 := hu1
    have hwc1' : welcomeCount uid outs = 0 := hwc1
    cases r with
    | some r1 =>
      rw [handleMessage_early msg st uid sp u st1 outs r1 hu hby hd]
      refine ⟨u1, hu1', ?_, ?_, ?_, hnk1, hun1, ?_⟩
      · rw [hsk1, hs]
      · intro h
        rw [hreg1, h]
      · intro h
        rw [hreg1] at h
        exact Or.inl h
      · rw [hwc1']
        rw [if_neg]
        rintro ⟨h1, h2⟩
        rw [hreg1, h1] at h2
        cases h2
    | none =>
      rw [handleMessage_fall msg st uid sp u st1 outs hu hby hd]
      by_cases hr : u.is_registered = true
      · have hr1 : u1.is_registered = true := by rw [hreg1, hr]
        rw [regCheck_registered st1 uid u1 hu1' hr1]
        refine ⟨u1, hu1', ?_, fun _h => hr1, fun _h => Or.inl hr, hnk1, hun1, ?_⟩
        · rw [hsk1, hs]
        · show welcomeCount uid (outs ++ []) = _
          rw [List.append_nil, hwc1']
          rw [if_neg]
          rintro ⟨h1, _h2⟩
          rw [hr] at h1
          cases h1
      · have hrf : u.is_registered = false := by
          cases hb : u.is_registered with
          | false => rfl
          | true => exact absurd hb hr
        have hr1 : u1.is_registered = false := by rw [hreg1, hrf]
        have hnotrise : ∀ w : User, w.is_registered = false →
            ¬(u.is_registered = false ∧ w.is_registered = true) := by
          rintro w hw ⟨_h1, h2⟩
          rw [hw] at h2
          cases h2
        rcases hn1 : u1.nickname with _ | n
        · have hpfx : u1.pfx = none := by
            unfold User.pfx
            rw [hn1]
          rw [regCheck_no_pfx st1 uid u1 hu1' hpfx]
          have hvac : u1.is_registered = true → u.is_registered = true ∨
              (u1.nickname.isSome = true ∧ u1.username.isSome = true) := by
            intro h
            rw [hr1] at h
            cases h
          refine ⟨u1, hu1', ?_, fun h => absurd h hr, hvac, hnk1, hun1, ?_⟩
          · rw [hsk1, hs]
          · show welcomeCount uid (outs ++ []) = _
            rw [List.append_nil, hwc1', if_neg (hnotrise u1 hr1)]
        · rcases hm1 : u1.username with _ | un
          · have hpfx : u1.pfx = none := by
              unfold User.pfx
              rw [hn1, hm1]
            rw [regCheck_no_pfx st1 uid u1 hu1' hpfx]
            have hvac : u1.is_registered = true → u.is_registered = true ∨
                (u1.nickname.isSome = true ∧ u1.username.isSome = true) := by
              intro h
              rw [hr1] at h
              cases h
            refine ⟨u1, hu1', ?_, fun h => absurd h hr, hvac, hnk1, hun1, ?_⟩
            · rw [hsk1, hs]
            · show welcomeCount uid (outs ++ []) = _
              rw [List.append_nil, hwc1', if_neg (hnotrise u1 hr1)]
          · have hpfx : u1.pfx = some (n ++ '!' :: un ++ '@' :: u1.address) := by
              unfold User.pfx
              rw [hn1, hm1]
            have hsk1' : u1.sinkOk = true := by rw [hsk1, hs]
            rw [regCheck_fires st1 uid u1 _ n hu1' hr1 hpfx hn1 hsk1']
            refine ⟨{ u1 with is_registered := true }, ?_, hsk1', fun _h => rfl,
              fun _h => Or.inr ⟨by simp [hn1], by simp [hm1]⟩,
              fun _h => by simp [hn1], fun _h => by simp [hm1], ?_⟩
            · show lookup (updateUser st1.users uid (fun v => { v with is_registered := true }))
                uid = _
              rw [lookup_updateUser_self, hu1']
              rfl
            · show welcomeCount uid (outs ++ [(uid, Line.resp (n ++ '!' :: un ++ '@' :: u1.address)
                RPL_WELCOME [n, welcomeText ++ (n ++ '!' :: un ++ '@' :: u1.address)])]) = _
              rw [welcomeCount_append, hwc1', if_pos ⟨hrf, rfl⟩]
              simp [welcomeCount, isWelcome, RPL_WELCOME]

theorem runSession_welcome (msgs : List Message) (st : ServerState) (uid : Nat) (sp : Str)
    (u : User) (hu : lookup st.users uid = some u) (hs : u.sinkOk = true)
    (hI : u.is_registered = true → u.nickname.isSome = true ∧ u.username.isSome = true) :
    ∃ u', lookup (runSession st uid sp msgs).1.users uid = some u' ∧
      u'.sinkOk = true ∧
      (u.is_registered = true → u'.is_registered = true) ∧
      (u'.is_registered = true → u'.nickname.isSome = true ∧ u'.username.isSome = true) ∧
      welcomeCount uid (runSession st uid sp msgs).2 =
        (if u.is_registered = false ∧ u'.is_registered = true then 1 else 0) := by
  induction msgs generalizing st u with
  | nil =>
    refine ⟨u, hu, hs, fun h => h, hI, ?_⟩
    rw [if_neg]
    · rfl
    · rintro ⟨h1, h2⟩
      rw [h1] at h2
      cases h2
  | cons m rest ih =>
    rcases hh : handleMessage m st uid sp with ⟨st1, outs, r⟩
    have hstep := handleMessage_step m st uid sp u hu hs
    rw [hh] at hstep
    obtain ⟨u1, hu1, hs1, hmono1, hI1q, hnk1, hun1, hwc1⟩ := hstep
    have hu1' : lookup st1.users uid = some u1 := hu1
    have hwc1' : welcomeCount uid outs =
        (if u.is_registered = false ∧ u1.is_registered = true then 1 else 0) := hwc1
    have hI1 : u1.is_registered = true → u1.nickname.isSome = true ∧
        u1.username.isSome = true := by
      intro h
      rcases hI1q h with h2 | h2
      · obtain ⟨ha, hb⟩ := hI h2
        exact ⟨hnk1 ha, hun1 hb⟩
      · exact h2
    cases r with
    | quit =>
      have hrun : runSession st uid sp (m :: rest) = (st1, outs) := by
        simp only [runSession]
        rw [hh]
      rw [hrun]
      exact ⟨u1, hu1', hs1, hmono1, hI1, hwc1'⟩
    | cont =>
      have hrun : runSession st uid sp (m :: rest) =
          ((runSession st1 uid sp rest).1, outs ++ (runSession st1 uid sp rest).2) := by
        simp only [runSession]
        rw [hh]
      obtain ⟨u2, hu2, hs2, hmono2, hI2, hwc2⟩ := ih st1 u1 hu1' hs1 hI1
      rw [hrun]
      refine ⟨u2, hu2, hs2, fun h => hmono2 (hmono1 h), hI2, ?_⟩
      rw [welcomeCount_append, hwc1', hwc2]
      rcases hra : u.is_registered with _ | _ <;> rcases hrb : u1.is_registered with _ | _ <;>
        rcases hrc : u2.is_registered with _ | _ <;> simp_all
    | err =>
      have hrun : runSession st uid sp (m :: rest) =
          ((runSession st1 uid sp rest).1, outs ++ (runSession st1 uid sp rest).2) := by
        simp only [runSession]
        rw [hh]
      obtain ⟨u2, hu2, hs2, hmono2, hI2, hwc2⟩ := ih st1 u1 hu1' hs1 hI1
      rw [hrun]
      refine ⟨u2, hu2, hs2, fun h => hmono2 (hmono1 h), hI2, ?_⟩
      rw [welcomeCount_append, hwc1', hwc2]
      rcases hra : u.is_registered with _ | _ <;> rcases hrb : u1.is_registered with _ | _ <;>
        rcases hrc : u2.is_registered with _ | _ <;> simp_all

/-- Claim C3.  Over any command sequence of one session starting from an
unregistered participant with a working sink, the is_registered flag of that
participant rises monotonically, it is true at the end only if nickname and
username are both set, and the number of RPL_WELCOME lines delivered to the
participant equals one exactly when the flag ended true (so the single
transition and the single welcome coincide, and neither happens twice). -/
theorem c3_registration_once (msgs : List Message) (st : ServerState) (uid : Nat) (sp : Str)
    (u : User) (hu : lookup st.users uid = some u) (hreg : u.is_registered = false)
    (hs : u.sinkOk = true) :
    ∃ u', lookup (runSession st uid sp msgs).1.users uid = some u' ∧
      (u'.is_registered = true → u'.nickname.isSome = true ∧ u'.username.isSome = true) ∧
      welcomeCount uid (runSession st uid sp msgs).2 =
        (if u'.is_registered = true then 1 else 0) := by
  obtain ⟨u', h1, _h2, _h3, hI, hw⟩ := runSession_welcome msgs st uid sp u hu hs
    (fun h => by rw [hreg] at h; cases h)
  refine ⟨u', h1, hI, ?_⟩
  rw [hw, hreg]
  simp

/-- Witness for claim C3: the session sends NICK then USER and registers. -/
theorem c3_witness :
    ∃ u', lookup (runSession c3State 4 "srv".toList
        [Message.mk none .nick ["al".toList], Message.mk none .user ["au".toList]]).1.users 4 =
      some u' ∧
      (u'.is_registered = true → u'.nickname.isSome = true ∧ u'.username.isSome = true) ∧
      welcomeCount 4 (runSession c3State 4 "srv".toList
        [Message.mk none .nick ["al".toList], Message.mk none .user ["au".toList]]).2 =
        (if u'.is_registered = true then 1 else 0) :=
  c3_registration_once [Message.mk none .nick ["al".toList], Message.mk none .user ["au".toList]]
    c3State 4 "srv".toList (User.fresh "h".toList) (by decide) (by decide) (by decide)

theorem splitOnce_some (sep : Char) (l : Str) : ∀ w r, splitOnce sep l = some (w, r) →
    l = w ++ sep :: r ∧ sep ∉ w := by
  induction l with
  | nil => intro w r h; cases h
  | cons c rest ih =>
    intro w r h
    simp only [splitOnce] at h
    by_cases hc : c = sep
    · rw [if_pos hc] at h
      injection h with h1
      rw [Prod.mk.injEq] at h1
      obtain ⟨hw, hr⟩ := h1
      subst hc
      rw [← hw, ← hr]
      exact ⟨rfl, by simp⟩
    · rw [if_neg hc] at h
      cases hsp : splitOnce sep rest with
      | none =>
        rw [hsp] at h
        cases h
      | some p =>
        rw [hsp] at h
        obtain ⟨w1, r1⟩ := p
        simp at h
        obtain ⟨hw, hr⟩ := h
        obtain ⟨he, hm⟩ := ih w1 r1 hsp
        rw [← hw, ← hr]
        constructor
        · rw [List.cons_append, ← he]
        · intro hmem
          rcases List.mem_cons.1 hmem with h2 | h2
          · exact hc h2.symm
          · exact hm h2

theorem splitOnce_none (sep : Char) (l : Str) : splitOnce sep l = none → sep ∉ l := by
  induction l with
  | nil =>
    intro _ hm
    cases hm
  | cons c rest ih =>
    intro h
    simp only [splitOnce] at h
    by_cases hc : c = sep
    · rw [if_pos hc] at h
      cases h
    · rw [if_neg hc] at h
      cases hsp : splitOnce sep rest with
      | none =>
        intro hmem
        rcases List.mem_cons.1 hmem with h2 | h2
        · exact hc h2.symm
        · exact ih hsp h2
      | some p =>
        rw [hsp] at h
        simp at h

theorem splitOnce_append (sep : Char) (w r : Str) (hw : sep ∉ w) :
    splitOnce sep (w ++ sep :: r) = some (w, r) := by
  induction w with
  | nil => simp [splitOnce]
  | cons c w' ih =>
    have hc : c ≠ sep := by
      intro he
      refine hw ?_
      rw [← he]
      exact List.mem_cons_self _ _
    simp only [List.cons_append, splitOnce, if_neg hc, List.append_eq]
    rw [ih (fun hm => hw (List.mem_cons_of_mem _ hm))]
    rfl

theorem getNextWord_append (w r : Str) (hw : ' ' ∉ w) : getNextWord (w ++ ' ' :: r) = (w, r) := by
  unfold getNextWord
  rw [splitOnce_append ' ' w r hw]

theorem getNextWord_all (w : Str) (hw : ' ' ∉ w) : getNextWord w = (w, []) := by
  unfold getNextWord
  cases hsp : splitOnce ' ' w with
  | none => rfl
  | some p =>
    obtain ⟨w1, r1⟩ := p
    obtain ⟨he, _⟩ := splitOnce_some ' ' w w1 r1 hsp
    have : ' ' ∈ w := by
      rw [he]
      exact List.mem_append_right _ (List.mem_cons_self _ _)
    exact absurd this hw

theorem getNextWord_fst_no_space (s : Str) : ' ' ∉ (getNextWord s).1 := by
  unfold getNextWord
  cases hsp : splitOnce ' ' s with
  | none => exact splitOnce_none ' ' s hsp
  | some p =>
    obtain ⟨w1, r1⟩ := p
    exact (splitOnce_some ' ' s w1 r1 hsp).2

theorem dropWhile_ws_append (a b : Str) (ha : ∀ c ∈ a, isWs c = true) :
    List.dropWhile isWs (a ++ b) = List.dropWhile isWs b := by
  induction a with
  | nil => rfl
  | cons c a' ih =>
    rw [List.cons_append, List.dropWhile_cons, if_pos (ha c (List.mem_cons_self _ _))]
    exact ih (fun c1 hc1 => ha c1 (List.mem_cons_of_mem _ hc1))

theorem trimEnd_append_ws (a b : Str) (hb : ∀ c ∈ b, isWs c = true) :
    trimEnd (a ++ b) = trimEnd a := by
  unfold trimEnd
  rw [List.reverse_append]
  rw [dropWhile_ws_append b.reverse a.reverse (fun c hc => hb c (List.mem_reverse.1 hc))]

theorem trimEnd_eq_self (s : Str) (h : lastNonWs s) : trimEnd s = s := by
  unfold trimEnd
  have hdw : List.dropWhile isWs s.reverse = s.reverse := by
    cases hs : s.reverse with
    | nil => rfl
    | cons c rest =>
      rw [List.dropWhile_cons]
      have hc : isWs c = false := by
        apply h
        rw [← List.head?_reverse, hs]
        rfl
      rw [hc]
      simp
  rw [hdw, List.reverse_reverse]

theorem dropWhile_head_not (p : Char → Bool) (l : Str) (c : Char)
    (h : (List.dropWhile p l).head? = some c) : p c = false := by
  induction l with
  | nil => cases h
  | cons d rest ih =>
    rw [List.dropWhile_cons] at h
    by_cases hd : p d = true
    · rw [if_pos hd] at h
      exact ih h
    · rw [if_neg hd] at h
      injection h with h1
      rw [← h1]
      cases hp : p d with
      | false => rfl
      | true => exact absurd hp hd

theorem lastNonWs_trimEnd (s : Str) : lastNonWs (trimEnd s) := by
  intro c hc
  unfold trimEnd at hc
  rw [← List.head?_reverse, List.reverse_reverse] at hc
  exact dropWhile_head_not isWs s.reverse c hc

theorem getLast?_cons_of_ne {α : Type} (c : α) (rest : List α) (h : rest ≠ []) :
    (c :: rest).getLast? = rest.getLast? := by
  cases rest with
  | nil => exact absurd rfl h
  | cons d ds => rw [List.getLast?_cons_cons]

theorem lastNonWs_append (a b : Str) (hb : b ≠ []) (h : lastNonWs b) : lastNonWs (a ++ b) := by
  intro c hc
  rw [List.getLast?_append_of_ne_nil a hb] at hc
  exact h c hc

theorem parseParamsGo_nil (fuel : Nat) : parseParamsGo fuel [] = [] := by
  cases fuel with
  | zero => rfl
  | succ n => rfl

theorem parseParamsGo_ne_nil (fuel : Nat) (c : Char) (rest : Str)
    (hf : (c :: rest).length < fuel) : parseParamsGo fuel (c :: rest) ≠ [] := by
  cases fuel with
  | zero => exact absurd hf (Nat.not_lt_zero _)
  | succ n =>
    simp only [parseParamsGo]
    by_cases hc : c = ':'
    · rw [if_pos hc]
      simp
    · rw [if_neg hc]
      simp

theorem dropLast_cons_of_ne {α : Type} (w : α) (l : List α) (h : l ≠ []) :
    (w :: l).dropLast = w :: l.dropLast := by
  cases l with
  | nil => exact absurd rfl h
  | cons a as => rfl

theorem parseParamsGo_shape (fuel : Nat) : ∀ s : Str, s.length < fuel →
    (∀ w ∈ (parseParamsGo fuel s).dropLast, ' ' ∉ w ∧ w.head? ≠ some ':') ∧
    (lastNonWs s → ∀ t, (parseParamsGo fuel s).getLast? = some t → lastNonWs t) := by
  induction fuel with
  | zero =>
    intro s hf
    exact absurd hf (Nat.not_lt_zero _)
  | succ n ih =>
    intro s hf
    cases s with
    | nil =>
      constructor
      · intro w hw
        cases hw
      · intro _ t ht
        cases ht
    | cons c rest =>
      by_cases hc : c = ':'
      · have hres : parseParamsGo (n + 1) (c :: rest) = [rest] := by
          simp only [parseParamsGo]
          rw [if_pos hc]
        rw [hres]
        constructor
        · intro w hw
          cases hw
        · intro hlast t ht
          injection ht with h1
          rw [← h1]
          intro d hd
          apply hlast
          rw [getLast?_cons_of_ne c rest]
          · exact hd
          · intro hnil
            rw [hnil] at hd
            cases hd
      · cases hsp : splitOnce ' ' (c :: rest) with
        | none =>
          have hres : parseParamsGo (n + 1) (c :: rest) = [c :: rest] := by
            simp only [parseParamsGo]
            rw [if_neg hc]
            unfold getNextWord
            rw [hsp]
            simp [parseParamsGo_nil]
          rw [hres]
          constructor
          · intro w hw
            cases hw
          · intro hlast t ht
            injection ht with h1
            rw [← h1]
            exact hlast
        | some p =>
          obtain ⟨w, r⟩ := p
          obtain ⟨he, hnm⟩ := splitOnce_some ' ' (c :: rest) w r hsp
          have hrlen : r.length < n := by
            have h1 : (c :: rest).length = w.length + 1 + r.length := by
              rw [he]
              simp [List.length_append]
              omega
            omega
          have hres : parseParamsGo (n + 1) (c :: rest) = w :: parseParamsGo n r := by
            simp only [parseParamsGo]
            rw [if_neg hc]
            unfold getNextWord
            rw [hsp]
          rw [hres]
          have hwhead : w.head? ≠ some ':' := by
            cases w with
            | nil => simp
            | cons d w' =>
              rw [List.cons_append] at he
              injection he with h1 _h2
              rw [h1] at hc
              simp only [List.head?_cons]
              intro hcontra
              injection hcontra with h3
              exact hc h3
          obtain ⟨iha, ihb⟩ := ih r hrlen
          cases hrest : parseParamsGo n r with
          | nil =>
            constructor
            · intro w1 hw1
              cases hw1
            · intro hlast t ht
              injection ht with h1
              rw [← h1]
              have hrnil : r = [] := by
                cases r with
                | nil => rfl
                | cons d ds => exact absurd hrest (parseParamsGo_ne_nil n d ds hrlen)
              rw [hrnil] at he
              exfalso
              have hsp2 : (c :: rest).getLast? = some ' ' := by
                rw [he]
                exact List.getLast?_concat _
              have := hlast ' ' hsp2
              simp [isWs] at this
          | cons q qs =>
            rw [← hrest]
            have hrne : parseParamsGo n r ≠ [] := by
              rw [hrest]
              simp
            constructor
            · intro w1 hw1
              rw [dropLast_cons_of_ne w _ hrne] at hw1
              rcases List.mem_cons.1 hw1 with h2 | h2
              · rw [h2]
                exact ⟨hnm, hwhead⟩
              · exact iha w1 h2
            · intro hlast t ht
              rw [getLast?_cons_of_ne w _ hrne] at ht
              have hrne' : r ≠ [] := by
                intro hnil
                rw [hnil, parseParamsGo_nil] at hrest
                cases hrest
              refine ihb ?_ t ht
              intro d hd
              apply hlast
              rw [he]
              rw [List.getLast?_append_of_ne_nil w (by simp)]
              rw [getLast?_cons_of_ne ' ' r hrne']
              exact hd

theorem parseParamsGo_joinSp (ps : List Str) : ∀ fuel : Nat,
    (joinSp (ps.map fmtParam)).length < fuel →
    (∀ w ∈ ps.dropLast, ' ' ∉ w ∧ w.head? ≠ some ':') →
    (∀ t, ps.getLast? = some t → t ≠ [] ∧ (t.head? = some ':' → ' ' ∈ t)) →
    parseParamsGo fuel (joinSp (ps.map fmtParam)) = ps := by
  induction ps with
  | nil =>
    intro fuel _hf _hm _hl
    cases fuel with
    | zero => rfl
    | succ n => rfl
  | cons w ps' ih =>
    intro fuel hf hm hl
    cases ps' with
    | nil =>
      obtain ⟨htne, htcolon⟩ := hl w rfl
      by_cases hs : ' ' ∈ w
      · have hfp : joinSp ([w].map fmtParam) = ':' :: w := by
          simp [joinSp, fmtParam, hs]
        rw [hfp] at hf ⊢
        cases fuel with
        | zero => exact absurd hf (Nat.not_lt_zero _)
        | succ n =>
          simp [parseParamsGo]
      · have hfp : joinSp ([w].map fmtParam) = w := by
          simp [joinSp, fmtParam, hs]
        rw [hfp] at hf ⊢
        cases hw : w with
        | nil => exact absurd hw htne
        | cons d w' =>
          have hd : d ≠ ':' := by
            intro he
            refine hs (htcolon ?_)
            rw [hw, he]
            rfl
          cases fuel with
          | zero => exact absurd hf (Nat.not_lt_zero _)
          | succ n =>
            simp only [parseParamsGo]
            rw [if_neg hd]
            rw [hw] at hs
            rw [getNextWord_all (d :: w') hs]
            simp [parseParamsGo_nil]
    | cons y ps'' =>
      have hwm : ' ' ∉ w ∧ w.head? ≠ some ':' := by
        apply hm
        rw [dropLast_cons_of_ne w (y :: ps'') (by simp)]
        exact List.mem_cons_self _ _
      have hfw : fmtParam w = w := by
        unfold fmtParam
        rw [if_neg hwm.1]
      have hjoin : joinSp ((w :: y :: ps'').map fmtParam) =
          w ++ ' ' :: joinSp ((y :: ps'').map fmtParam) := by
        simp only [List.map_cons, joinSp, hfw]
      rw [hjoin] at hf ⊢
      have hlen : (joinSp ((y :: ps'').map fmtParam)).length < fuel - 1 := by
        have : (w ++ ' ' :: joinSp ((y :: ps'').map fmtParam)).length =
            w.length + 1 + (joinSp ((y :: ps'').map fmtParam)).length := by
          simp [List.length_append]
          omega
        omega
      have ihy := ih (fuel - 1) hlen
        (by
          intro w1 hw1
          apply hm
          rw [dropLast_cons_of_ne w (y :: ps'') (by simp)]
          exact List.mem_cons_of_mem _ hw1)
        (by
          intro t ht
          apply hl
          rw [getLast?_cons_of_ne w (y :: ps'') (by simp)]
          exact ht)
      cases fuel with
      | zero => exact absurd hf (Nat.not_lt_zero _)
      | succ n =>
        rw [show n + 1 - 1 = n from rfl] at ihy
        cases hw : w with
        | nil =>
          simp only [List.nil_append, parseParamsGo]
          rw [if_neg (by decide : ¬(' ' = ':'))]
          unfold getNextWord
          have hsp : splitOnce ' ' (' ' :: joinSp ((y :: ps'').map fmtParam)) =
              some ([], joinSp ((y :: ps'').map fmtParam)) := by
            simp [splitOnce]
          rw [hsp]
          show [] :: parseParamsGo n (joinSp ((y :: ps'').map fmtParam)) = [] :: y :: ps''
          rw [ihy]
        | cons d w' =>
          have hd : d ≠ ':' := by
            intro he
            apply hwm.2
            rw [hw, he]
            rfl
          have hw2 : ' ' ∉ d :: w' := by
            rw [← hw]
            exact hwm.1
          simp only [List.cons_append, parseParamsGo]
          rw [if_neg hd]
          unfold getNextWord
          have hsp2 : splitOnce ' ' (d :: (w' ++ ' ' :: joinSp ((y :: ps'').map fmtParam))) =
              some (d :: w', joinSp ((y :: ps'').map fmtParam)) := by
            have h3 := splitOnce_append ' ' (d :: w') (joinSp ((y :: ps'').map fmtParam)) hw2
            simpa using h3
          simp only [List.append_eq]
          rw [hsp2]
          show (d :: w') :: parseParamsGo n (joinSp ((y :: ps'').map fmtParam)) =
              (d :: w') :: y :: ps''
          rw [ihy]

theorem lastNonWs_of_getLast (s : Str)
    (h : Option.all (fun d => !isWs d) s.getLast? = true) : lastNonWs s := by
  intro c hc
  rw [hc] at h
  simpa using h

theorem cmdStr_ne_nil (c : Command) : Command.toStr c ≠ [] := by
  cases c <;> decide

theorem cmdStr_no_space (c : Command) : ' ' ∉ Command.toStr c := by
  cases c <;> decide

theorem cmdStr_head_ne_colon (c : Command) : (Command.toStr c).head? ≠ some ':' := by
  cases c <;> decide

theorem cmdStr_lastNonWs (c : Command) : lastNonWs (Command.toStr c) := by
  cases c <;> exact lastNonWs_of_getLast _ (by decide)

theorem fromStr_toStr (c : Command) : Command.fromStr (Command.toStr c) = c := by
  cases c <;> decide

theorem head?_append_of_ne_nil (a b : Str) (ha : a ≠ []) : (a ++ b).head? = a.head? := by
  cases a with
  | nil => exact absurd rfl ha
  | cons c cs => rfl

theorem lastNonWs_tail (s : Str) (h : lastNonWs s) : lastNonWs s.tail := by
  cases s with
  | nil =>
    intro c hc
    cases hc
  | cons a rest =>
    intro c hc
    apply h
    rw [getLast?_cons_of_ne a rest]
    · exact hc
    · intro hr
      rw [hr] at hc
      cases hc

theorem lastNonWs_of_append (a b : Str) (hb : b ≠ []) (h : lastNonWs (a ++ b)) :
    lastNonWs b := by
  intro c hc
  apply h
  rw [List.getLast?_append_of_ne_nil a hb]
  exact hc

theorem lastNonWs_getNextWord_snd (s : Str) (h : lastNonWs s) :
    lastNonWs (getNextWord s).2 := by
  unfold getNextWord
  cases hsp : splitOnce ' ' s with
  | none =>
    intro c hc
    cases hc
  | some p =>
    obtain ⟨w, r⟩ := p
    obtain ⟨he, _⟩ := splitOnce_some ' ' s w r hsp
    show lastNonWs r
    by_cases hr : r = []
    · rw [hr]
      intro c hc
      cases hc
    · apply lastNonWs_of_append (w ++ [' ']) r hr
      have h2 : (w ++ [' ']) ++ r = s := by
        rw [he, List.append_assoc]
        rfl
      rw [h2]
      exact h

theorem fmtParam_ne_nil (t : Str) (h : t ≠ []) : fmtParam t ≠ [] := by
  unfold fmtParam
  by_cases hs : ' ' ∈ t
  · rw [if_pos hs]
    simp
  · rw [if_neg hs]
    exact h

theorem fmtParam_getLast (t : Str) (h : t ≠ []) : (fmtParam t).getLast? = t.getLast? := by
  unfold fmtParam
  by_cases hs : ' ' ∈ t
  · rw [if_pos hs]
    exact getLast?_cons_of_ne ':' t h
  · rw [if_neg hs]

theorem joinSp_last (ls : List Str) : ∀ t : Str, ls.getLast? = some t → t ≠ [] →
    joinSp ls ≠ [] ∧ (joinSp ls).getLast? = t.getLast? := by
  induction ls with
  | nil =>
    intro t ht _
    cases ht
  | cons x xs ih =>
    intro t ht htne
    cases xs with
    | nil =>
      have hx : some x = some t := ht
      injection hx with hx2
      subst hx2
      exact ⟨htne, rfl⟩
    | cons y ys =>
      have ht2 : (y :: ys).getLast? = some t := by
        rw [← getLast?_cons_of_ne x (y :: ys) (by simp)]
        exact ht
      obtain ⟨h1, h2⟩ := ih t ht2 htne
      constructor
      · show x ++ ' ' :: joinSp (y :: ys) ≠ []
        simp
      · show (x ++ ' ' :: joinSp (y :: ys)).getLast? = t.getLast?
        rw [List.getLast?_append_of_ne_nil x (by simp)]
        rw [getLast?_cons_of_ne ' ' _ h1]
        exact h2

theorem joinSp_map_last (ps : List Str) (t : Str) (ht : ps.getLast? = some t)
    (htne : t ≠ []) :
    joinSp (ps.map fmtParam) ≠ [] ∧
    (joinSp (ps.map fmtParam)).getLast? = t.getLast? := by
  have hm : (ps.map fmtParam).getLast? = some (fmtParam t) := by
    rw [List.getLast?_map, ht]
    rfl
  obtain ⟨h1, h2⟩ := joinSp_last (ps.map fmtParam) (fmtParam t) hm (fmtParam_ne_nil t htne)
  refine ⟨h1, ?_⟩
  rw [h2, fmtParam_getLast t htne]

theorem lastParamOkB_spec (ps : List Str) (h : lastParamOkB ps = true) :
    ∀ t, ps.getLast? = some t → t ≠ [] ∧ (t.head? = some ':' → ' ' ∈ t) := by
  intro t ht
  unfold lastParamOkB at h
  rw [ht] at h
  simp only [Bool.and_eq_true, Bool.or_eq_true, Bool.not_eq_true'] at h
  obtain ⟨h1, h2⟩ := h
  constructor
  · intro hnil
    rw [hnil] at h1
    cases h1
  · intro hhead
    rcases h2 with h3 | h3
    · rw [hhead] at h3
      simp at h3
    · simpa using h3

theorem parseRest_ok (pv : Option Str) (raw : Str) (m : Message)
    (h : parseRest pv raw = .ok m) :
    m.pfx = pv ∧ m.command = Command.fromStr (getNextWord raw).1 ∧
    m.params = parseParams (getNextWord raw).2 ∧ (getNextWord raw).1 ≠ [] := by
  simp only [parseRest] at h
  by_cases hcw : (getNextWord raw).1 = []
  · rw [if_pos hcw] at h
    cases h
  · rw [if_neg hcw] at h
    injection h with h1
    rw [← h1]
    exact ⟨rfl, rfl, rfl, hcw⟩

theorem parseMsg_ok_facts (L : Str) (m : Message) (h : parseMsg L = .ok m) :
    (∀ p, m.pfx = some p → ' ' ∉ p) ∧
    (∀ w ∈ m.params.dropLast, ' ' ∉ w ∧ w.head? ≠ some ':') ∧
    (∀ t, m.params.getLast? = some t → lastNonWs t) := by
  have htr : lastNonWs (trimEnd L) := lastNonWs_trimEnd L
  simp only [parseMsg] at h
  by_cases hh : (trimEnd L).head? = some ':'
  · rw [if_pos hh] at h
    obtain ⟨h1, _h2, h3, _h4⟩ := parseRest_ok _ _ _ h
    have hraw : lastNonWs (getNextWord (trimEnd L).tail).2 :=
      lastNonWs_getNextWord_snd _ (lastNonWs_tail _ htr)
    have hcw2 : lastNonWs (getNextWord (getNextWord (trimEnd L).tail).2).2 :=
      lastNonWs_getNextWord_snd _ hraw
    refine ⟨?_, ?_, ?_⟩
    · intro p hp
      rw [h1] at hp
      injection hp with h5
      rw [← h5]
      exact getNextWord_fst_no_space _
    · intro w hw
      rw [h3] at hw
      simp only [parseParams] at hw
      exact (parseParamsGo_shape _ _ (Nat.lt_succ_self _)).1 w hw
    · intro t ht
      rw [h3] at ht
      simp only [parseParams] at ht
      exact (parseParamsGo_shape _ _ (Nat.lt_succ_self _)).2 hcw2 t ht
  · rw [if_neg hh] at h
    obtain ⟨h1, _h2, h3, _h4⟩ := parseRest_ok _ _ _ h
    have hcw2 : lastNonWs (getNextWord (trimEnd L)).2 :=
      lastNonWs_getNextWord_snd _ htr
    refine ⟨?_, ?_, ?_⟩
    · intro p hp
      rw [h1] at hp
      cases hp
    · intro w hw
      rw [h3] at hw
      simp only [parseParams] at hw
      exact (parseParamsGo_shape _ _ (Nat.lt_succ_self _)).1 w hw
    · intro t ht
      rw [h3] at ht
      simp only [parseParams] at ht
      exact (parseParamsGo_shape _ _ (Nat.lt_succ_self _)).2 hcw2 t ht

theorem parseRest_cmd_only (pv : Option Str) (cmd : Command) :
    parseRest pv (Command.toStr cmd) = .ok (Message.mk pv cmd []) := by
  simp only [parseRest, getNextWord_all (Command.toStr cmd) (cmdStr_no_space cmd)]
  rw [if_neg (cmdStr_ne_nil cmd)]
  rw [fromStr_toStr]
  rfl

theorem parseRest_cmd_params (pv : Option Str) (cmd : Command) (J : Str) (ps : List Str)
    (hJ : parseParams J = ps) :
    parseRest pv (Command.toStr cmd ++ ' ' :: J) = .ok (Message.mk pv cmd ps) := by
  simp only [parseRest,
    getNextWord_append (Command.toStr cmd) J (cmdStr_no_space cmd)]
  rw [if_neg (cmdStr_ne_nil cmd)]
  rw [fromStr_toStr, hJ]

theorem parseMsg_of_trim_colon (L2 rest : Str) (htr : trimEnd L2 = ':' :: rest) :
    parseMsg L2 = parseRest (some (getNextWord rest).1) (getNextWord rest).2 := by
  simp only [parseMsg, htr]
  have hcond : (':' :: rest).head? = some ':' := rfl
  rw [if_pos hcond]
  rfl

theorem parseMsg_of_trim_word (L2 T : Str) (htr : trimEnd L2 = T)
    (hh : T.head? ≠ some ':') : parseMsg L2 = parseRest none T := by
  simp only [parseMsg, htr]
  rw [if_neg hh]

/-- Claim C6 as amended: serializing a successfully parsed message and parsing
it again returns the same message, provided the parse's last parameter (if
any) is nonempty and, when it begins with a colon, contains a space.  (The
two excluded shapes are exactly the counterexample family: an empty trailing
parameter is dropped on reparse, and a space-free trailing parameter starting
with a colon loses its colon.) -/
theorem c6_parse_serialize_roundtrip (L : Str) (p1 : Message)
    (h : parseMsg L = .ok p1) (hok : lastParamOkB p1.params = true) :
    parseMsg (toIrc p1) = .ok p1 := by
  obtain ⟨hpfx, hmid, hlastws⟩ := parseMsg_ok_facts L p1 h
  obtain ⟨pv, cmd, ps⟩ := p1
  cases ps with
  | nil =>
    cases pv with
    | none =>
      have htr : trimEnd (toIrc (Message.mk none cmd [])) = Command.toStr cmd := by
        have h1 : toIrc (Message.mk none cmd []) =
            Command.toStr cmd ++ [' ', '\r', '\n'] := by
          show (Command.toStr cmd ++ [' ']) ++ ['\r', '\n'] =
              Command.toStr cmd ++ [' ', '\r', '\n']
          rw [List.append_assoc]
          rfl
        rw [h1, trimEnd_append_ws _ _ (by decide),
          trimEnd_eq_self _ (cmdStr_lastNonWs cmd)]
      rw [parseMsg_of_trim_word _ _ htr (cmdStr_head_ne_colon cmd)]
      exact parseRest_cmd_only none cmd
    | some p =>
      have hp : ' ' ∉ p := hpfx p rfl
      have htr : trimEnd (toIrc (Message.mk (some p) cmd [])) =
          ':' :: (p ++ ' ' :: Command.toStr cmd) := by
        have h1 : toIrc (Message.mk (some p) cmd []) =
            ((':' :: p) ++ ' ' :: Command.toStr cmd) ++ [' ', '\r', '\n'] := by
          show ((':' :: p) ++ ' ' :: (Command.toStr cmd ++ [' '])) ++ ['\r', '\n'] =
              ((':' :: p) ++ ' ' :: Command.toStr cmd) ++ [' ', '\r', '\n']
          simp
        have h2 : lastNonWs ((':' :: p) ++ ' ' :: Command.toStr cmd) := by
          have h3 : (':' :: p) ++ ' ' :: Command.toStr cmd =
              ((':' :: p) ++ [' ']) ++ Command.toStr cmd := by
            simp
          rw [h3]
          exact lastNonWs_append _ _ (cmdStr_ne_nil cmd) (cmdStr_lastNonWs cmd)
        rw [h1, trimEnd_append_ws _ _ (by decide), trimEnd_eq_self _ h2]
        rfl
      rw [parseMsg_of_trim_colon _ _ htr]
      rw [getNextWord_append p _ hp]
      exact parseRest_cmd_only (some p) cmd
  | cons q qs =>
    cases hq : (q :: qs).getLast? with
    | none => simp at hq
    | some t =>
      obtain ⟨htne, _⟩ := lastParamOkB_spec (q :: qs) hok t hq
      have htws : lastNonWs t := hlastws t hq
      obtain ⟨hJne, hJlast⟩ := joinSp_map_last (q :: qs) t hq htne
      have hJws : lastNonWs (joinSp ((q :: qs).map fmtParam)) := by
        intro c hc
        rw [hJlast] at hc
        exact htws c hc
      have hps : parseParams (joinSp ((q :: qs).map fmtParam)) = q :: qs := by
        simp only [parseParams]
        exact parseParamsGo_joinSp (q :: qs) _ (Nat.lt_succ_self _) hmid
          (lastParamOkB_spec (q :: qs) hok)
      cases pv with
      | none =>
        have htr : trimEnd (toIrc (Message.mk none cmd (q :: qs))) =
            Command.toStr cmd ++ ' ' :: joinSp ((q :: qs).map fmtParam) := by
          show trimEnd ((Command.toStr cmd ++ ' ' :: joinSp ((q :: qs).map fmtParam)) ++
              ['\r', '\n']) =
            Command.toStr cmd ++ ' ' :: joinSp ((q :: qs).map fmtParam)
          rw [trimEnd_append_ws _ _ (by decide)]
          apply trimEnd_eq_self
          have h3 : Command.toStr cmd ++ ' ' :: joinSp ((q :: qs).map fmtParam) =
              (Command.toStr cmd ++ [' ']) ++ joinSp ((q :: qs).map fmtParam) := by
            simp
          rw [h3]
          exact lastNonWs_append _ _ hJne hJws
        have hh : (Command.toStr cmd ++ ' ' :: joinSp ((q :: qs).map fmtParam)).head? ≠
            some ':' := by
          rw [head?_append_of_ne_nil _ _ (cmdStr_ne_nil cmd)]
          exact cmdStr_head_ne_colon cmd
        rw [parseMsg_of_trim_word _ _ htr hh]
        exact parseRest_cmd_params none cmd _ _ hps
      | some p =>
        have hp : ' ' ∉ p := hpfx p rfl
        have htr : trimEnd (toIrc (Message.mk (some p) cmd (q :: qs))) =
            ':' :: (p ++ ' ' ::
              (Command.toStr cmd ++ ' ' :: joinSp ((q :: qs).map fmtParam))) := by
          show trimEnd (((':' :: p) ++ ' ' ::
              (Command.toStr cmd ++ ' ' :: joinSp ((q :: qs).map fmtParam))) ++
              ['\r', '\n']) =
            ':' :: (p ++ ' ' ::
              (Command.toStr cmd ++ ' ' :: joinSp ((q :: qs).map fmtParam)))
          rw [trimEnd_append_ws _ _ (by decide)]
          have h2 : lastNonWs ((':' :: p) ++ ' ' ::
              (Command.toStr cmd ++ ' ' :: joinSp ((q :: qs).map fmtParam))) := by
            have h3 : (':' :: p) ++ ' ' ::
                (Command.toStr cmd ++ ' ' :: joinSp ((q :: qs).map fmtParam)) =
                (((':' :: p) ++ [' ']) ++ (Command.toStr cmd ++ [' '])) ++
                  joinSp ((q :: qs).map fmtParam) := by
              simp
            rw [h3]
            exact lastNonWs_append _ _ hJne hJws
          rw [trimEnd_eq_self _ h2]
          rfl
        rw [parseMsg_of_trim_colon _ _ htr]
        rw [getNextWord_append p _ hp]
        exact parseRest_cmd_params (some p) cmd _ _ hps

/-- Witness for the amended claim C6: a concrete prefixed PRIVMSG line whose
trailing parameter contains a space parses and round-trips unchanged. -/
theorem c6_witness :
    parseMsg (String.toList ":nick PRIVMSG #room :hello world\r\n") =
      .ok (Message.mk (some (String.toList "nick")) Command.privMsg
        [String.toList "#room", String.toList "hello world"]) ∧
    lastParamOkB [String.toList "#room", String.toList "hello world"] = true ∧
    parseMsg (toIrc (Message.mk (some (String.toList "nick")) Command.privMsg
        [String.toList "#room", String.toList "hello world"])) =
      .ok (Message.mk (some (String.toList "nick")) Command.privMsg
        [String.toList "#room", String.toList "hello world"]) :=
  ⟨by decide, by decide,
    c6_parse_serialize_roundtrip (String.toList ":nick PRIVMSG #room :hello world\r\n")
      _ (by decide) (by decide)⟩

end IrcRs
